import Mathlib

/-!
Verification of the UMD card-game rules engine.

Shallow embedding of `src/card.ts`, `src/player.ts` and `src/game.ts`:
pure data definitions mirror the TypeScript source line by line, stateful
methods of the `Game` class become functions `Game → Game` (or
`Game → Game × outcome`), and the two timer families (claim-window
timeout, UNO deadline) are modelled as explicit events firing on the
recorded timer state.
-/

namespace UMD

/-- Mirrors `CardColor` from `src/card.ts` (enum of four suits plus the
colorless wild marker). -/
inductive CardColor where
  | red
  | yellow
  | blue
  | green
  | wild
deriving DecidableEq, Repr, Inhabited

/-- The string value of the `CardColor` enum member (used in card ids). -/
def colorStr : CardColor → String
  | .red => "红"
  | .yellow => "黄"
  | .blue => "蓝"
  | .green => "绿"
  | .wild => "万能"

/-- Mirrors `CardType` from `src/card.ts`. -/
inductive CardType where
  | number
  | skip
  | reverse
  | drawTwo
  | wild
  | wildDrawFour
deriving DecidableEq, Repr, Inhabited

/-- Mirrors the `Card` interface from `src/card.ts`: color, value string,
type and globally unique id. -/
structure Card where
  color : CardColor
  value : String
  type : CardType
  id : String
deriving DecidableEq, Repr, Inhabited

/-- Model of JavaScript `parseInt(s)` (radix 10): skip leading whitespace,
optional sign, then leading decimal digits; `none` models `NaN`. -/
def jsParseInt (s : String) : Option Int :=
  let cs := s.data.dropWhile Char.isWhitespace
  let signRest : Int × List Char :=
    match cs with
    | '+' :: r => (1, r)
    | '-' :: r => (-1, r)
    | r => (1, r)
  let ds := signRest.2.takeWhile Char.isDigit
  if ds.isEmpty then none
  else some (signRest.1 * (ds.foldl (fun acc c => acc * 10 + (c.toNat - '0'.toNat)) 0 : Nat))

/-- The four playable suits, in the order the deck builder iterates them. -/
def stdColors : List CardColor := [.red, .yellow, .blue, .green]

/-- The special (non number, non wild) card templates, in source order. -/
def specialTemplates : List (CardType × String) :=
  [(.skip, "跳过"), (.reverse, "反转"), (.drawTwo, "+2")]

/-- The id string the deck builder gives card number `k` (the `cardId++`
counter equals the card's position since it increments once per push). -/
def cardIdStr (c : CardColor) (v : String) (ty : CardType) (k : Nat) : String :=
  match ty with
  | .wild => "wild-" ++ toString k
  | .wildDrawFour => "wild-draw4-" ++ toString k
  | _ => colorStr c ++ "-" ++ v ++ "-" ++ toString k

/-- The (color, value, type) sequence produced by `createDeck` in
`src/card.ts`: per color four 0s, eight of each number 1–9, then per color
four of each special, then eight wilds and eight wild-draw-fours. -/
def deckSpec : List (CardColor × String × CardType) :=
  (stdColors.flatMap fun c =>
    List.replicate 4 (c, "0", CardType.number) ++
    ((List.range 9).flatMap fun n => List.replicate 8 (c, toString (n + 1), CardType.number))) ++
  (stdColors.flatMap fun c =>
    specialTemplates.flatMap fun s => List.replicate 4 (c, s.2, s.1)) ++
  List.replicate 8 (CardColor.wild, "变色", CardType.wild) ++
  List.replicate 8 (CardColor.wild, "+4", CardType.wildDrawFour)

/-- Mirrors `createDeck` from `src/card.ts`. -/
def createDeck : List Card :=
  deckSpec.enum.map fun p =>
    { color := p.2.1, value := p.2.2.1, type := p.2.2.2
      id := cardIdStr p.2.1 p.2.2.1 p.2.2.2 p.1 }

/-- One destructuring swap `[a[i], a[j]] = [a[j], a[i]]` on a list. -/
def swapIdx (l : List Card) (i j : Nat) : List Card :=
  (l.set i (l.getD j default)).set j (l.getD i default)

/-- The Fisher–Yates loop of `shuffleDeck`, counting `i` down; the random
draw `Math.floor(Math.random() * (i + 1))` is modelled by `rand i % (i+1)`. -/
def shuffleAux (rand : Nat → Nat) : List Card → Nat → List Card
  | l, 0 => l
  | l, Nat.succ k => shuffleAux rand (swapIdx l (k + 1) (rand (k + 1) % (k + 2))) k

/-- Mirrors `shuffleDeck` from `src/card.ts`, parameterised by the random
source. -/
def shuffleDeck (rand : Nat → Nat) (deck : List Card) : List Card :=
  shuffleAux rand deck (deck.length - 1)

/-- Mirrors `cardsAreIdentical` from `src/card.ts` (color, value and type
agree; ids may differ). -/
def cardsAreIdentical (c1 c2 : Card) : Bool :=
  c1.color == c2.color && c1.value == c2.value && c1.type == c2.type

/-- Mirrors `getCardPower` from `src/card.ts`; `none` models the `NaN`
that `parseInt` yields on a non-numeric value string. -/
def getCardPower (card : Card) : Option Int :=
  match card.type with
  | .number => jsParseInt card.value
  | .skip => some 100
  | .reverse => some 200
  | .drawTwo => some 300
  | .wild => some 400
  | .wildDrawFour => some 400

/-- JavaScript `>` on possibly-NaN numbers: any comparison with NaN is false. -/
def jsGt (a b : Option Int) : Bool :=
  match a, b with
  | some x, some y => x > y
  | _, _ => false

/-- JavaScript `===` on possibly-NaN numbers: `NaN === NaN` is false. -/
def jsEqNum (a b : Option Int) : Bool :=
  match a, b with
  | some x, some y => x == y
  | _, _ => false

section SwapPerm

/-- Replacing index `m` by `a` while prepending the old element is a
permutation step. -/
theorem getD_cons_set_perm (t : List Card) (m : Nat) (a : Card)
    (h : m < t.length) : List.Perm (t.getD m default :: t.set m a) (a :: t) := by
  induction t generalizing m with
  | nil => simp at h
  | cons b t ih =>
    cases m with
    | zero =>
      simp only [List.getD_cons_zero, List.set_cons_zero]
      exact List.Perm.swap a b t
    | succ k =>
      simp only [List.getD_cons_succ, List.set_cons_succ]
      have hk : k < t.length := by simpa using h
      have s1 : List.Perm (t.getD k default :: b :: t.set k a)
          (b :: t.getD k default :: t.set k a) :=
        List.Perm.swap b (t.getD k default) _
      have s2 : List.Perm (b :: t.getD k default :: t.set k a) (b :: a :: t) :=
        (ih k hk).cons b
      have s3 : List.Perm (b :: a :: t) (a :: b :: t) := List.Perm.swap a b t
      exact (s1.trans s2).trans s3

/-- An index swap inside bounds permutes the list. -/
theorem swapIdx_perm (l : List Card) (i j : Nat) (hi : i < l.length)
    (hj : j < l.length) : List.Perm (swapIdx l i j) l := by
  induction l generalizing i j with
  | nil => simp at hi
  | cons a t ih =>
    cases i with
    | zero =>
      cases j with
      | zero => simp [swapIdx]
      | succ m =>
        have hm : m < t.length := by simpa using hj
        simp only [swapIdx, List.getD_cons_succ, List.getD_cons_zero,
          List.set_cons_zero, List.set_cons_succ]
        exact getD_cons_set_perm t m a hm
    | succ n =>
      cases j with
      | zero =>
        have hn : n < t.length := by simpa using hi
        simp only [swapIdx, List.getD_cons_succ, List.getD_cons_zero,
          List.set_cons_zero, List.set_cons_succ]
        exact getD_cons_set_perm t n a hn
      | succ m =>
        have hn : n < t.length := by simpa using hi
        have hm : m < t.length := by simpa using hj
        simp only [swapIdx, List.getD_cons_succ, List.set_cons_succ]
        exact (ih n m hn hm).cons a

/-- Each Fisher–Yates pass permutes the list. -/
theorem shuffleAux_perm (rand : Nat → Nat) (l : List Card) (k : Nat)
    (hk : k < l.length) : List.Perm (shuffleAux rand l k) l := by
  induction k generalizing l with
  | zero => simp [shuffleAux]
  | succ k ih =>
    have hj : rand (k + 1) % (k + 2) < l.length := by
      have : rand (k + 1) % (k + 2) < k + 2 := Nat.mod_lt _ (by omega)
      omega
    have hswap := swapIdx_perm l (k + 1) (rand (k + 1) % (k + 2)) hk hj
    have hlen : (swapIdx l (k + 1) (rand (k + 1) % (k + 2))).length = l.length :=
      hswap.length_eq
    have := ih (swapIdx l (k + 1) (rand (k + 1) % (k + 2))) (by omega)
    exact this.trans hswap

/-- `shuffleDeck` always returns a permutation of its input. -/
theorem shuffleDeck_perm (rand : Nat → Nat) (deck : List Card) :
    List.Perm (shuffleDeck rand deck) deck := by
  unfold shuffleDeck
  match deck with
  | [] => simp [shuffleAux]
  | a :: t =>
    exact shuffleAux_perm rand (a :: t) ((a :: t).length - 1) (by simp)

end SwapPerm

/-! ## Player model (`src/player.ts`) -/

/-- Mirrors the `Player` interface from `src/player.ts`; the WebSocket
handle is transport glue and is not part of the rules state. -/
structure Player where
  id : String
  name : String
  hand : List Card
  hasCalledUno : Bool
  meldedCards : List (List Card)
  isSkipped : Bool
  isConnected : Bool
deriving DecidableEq, Repr, Inhabited

/-- Mirrors `createPlayer` from `src/player.ts`. -/
def createPlayer (id name : String) : Player :=
  { id := id, name := name, hand := [], hasCalledUno := false
    meldedCards := [], isSkipped := false, isConnected := true }

/-- Mirrors `dealCards` from `src/player.ts`. -/
def dealCards (player : Player) (cards : List Card) : Player :=
  { player with hand := player.hand ++ cards }

/-- Mirrors `removeCardsFromHand` from `src/player.ts`: removes the cards
one at a time by id (first match spliced out); on a missing card it
returns `false` keeping the removals made so far (partial mutation). -/
def removeCardsFromHand (player : Player) : List Card → Player × Bool
  | [] => (player, true)
  | c :: rest =>
    match player.hand.findIdx? (fun x => x.id == c.id) with
    | none => (player, false)
    | some i => removeCardsFromHand { player with hand := player.hand.eraseIdx i } rest

/-- Mirrors `hasCards` from `src/player.ts` (membership by id). -/
def hasCards (player : Player) (cards : List Card) : Bool :=
  cards.all fun c => player.hand.any fun x => x.id == c.id

/-! ## Game state (`src/game.ts`) -/

/-- Mirrors the `GamePhase` enum. -/
inductive GamePhase where
  | waiting
  | playing
  | ended
deriving DecidableEq, Repr, Inhabited

/-- Mirrors the `HandType` enum. -/
inductive HandType where
  | single
  | pair
  | triple
  | fullHouse
  | straight
  | consecutivePairs
  | airplane
  | bomb
deriving DecidableEq, Repr, Inhabited

/-- The claim kinds of a `PotentialAction`. -/
inductive ClaimType where
  | chi
  | peng
  | gang
deriving DecidableEq, Repr, Inhabited

/-- Mirrors the `PotentialAction` interface. -/
structure PotentialAction where
  type : ClaimType
  playerId : String
  cards : List Card
  targetCard : Card
deriving DecidableEq, Repr, Inhabited

/-- Mirrors the `ClaimStep` interface. -/
structure ClaimStep where
  playerId : String
  actions : List PotentialAction
deriving DecidableEq, Repr, Inhabited

/-- Mirrors the `pendingEffect` record of the `Game` class. -/
structure PendingEffect where
  card : Card
  playedById : String
  chosenColor : Option CardColor
deriving DecidableEq, Repr, Inhabited

/-- Mirrors the mutable fields of the `Game` class. The two timer families
become explicit data: `actionTimeoutActive` records whether the claim-window
timeout is armed, `unoTimers` records the player ids with a live UNO
deadline, and `rand` is the random source consumed by reshuffles. -/
structure Game where
  players : List Player
  deck : List Card
  discardPile : List (List Card)
  currentPlayerIndex : Nat
  turnDirection : Int
  gamePhase : GamePhase
  lastPlayedHand : List Card
  lastPlayedHandType : Option HandType
  lastPlayedBy : Option String
  currentColor : Option CardColor
  pendingDrawCount : Nat
  pendingDrawType : Option CardType
  pendingEffect : Option PendingEffect
  pendingActions : List PotentialAction
  actionTimeoutActive : Bool
  claimQueue : List ClaimStep
  claimQueueIndex : Nat
  hasActiveRound : Bool
  passCount : Nat
  unoTimers : List String
  rand : Nat → Nat

/-- A fresh room in the WAITING phase (the `Game` constructor). -/
def newGame (rand : Nat → Nat) : Game :=
  { players := [], deck := shuffleDeck rand createDeck, discardPile := []
    currentPlayerIndex := 0, turnDirection := 1, gamePhase := .waiting
    lastPlayedHand := [], lastPlayedHandType := none, lastPlayedBy := none
    currentColor := none, pendingDrawCount := 0, pendingDrawType := none
    pendingEffect := none, pendingActions := [], actionTimeoutActive := false
    claimQueue := [], claimQueueIndex := 0, hasActiveRound := false
    passCount := 0, unoTimers := [], rand := rand }

instance : Inhabited Game := ⟨newGame fun _ => 0⟩

/-- Mirrors `getPlayerById` (`this.players.find(p => p.id === playerId)`). -/
def Game.getPlayerById (g : Game) (pid : String) : Option Player :=
  g.players.find? fun p => p.id == pid

/-- Replace the first player carrying `pid` — in JS the handlers mutate the
found `Player` object, which is exactly the first list entry with that id. -/
def updateFirst : List Player → String → (Player → Player) → List Player
  | [], _, _ => []
  | p :: rest, pid, f =>
    if p.id == pid then f p :: rest else p :: updateFirst rest pid f

/-- In-place mutation of the player object found by id. -/
def updatePlayerById (g : Game) (pid : String) (f : Player → Player) : Game :=
  { g with players := updateFirst g.players pid f }

/-- Mirrors `clearUnoTimer`: `clearTimeout` plus removal from both maps. -/
def clearUnoTimer (g : Game) (pid : String) : Game :=
  { g with unoTimers := g.unoTimers.filter fun x => x != pid }

/-- Mirrors `onPlayerHandChanged` from `src/game.ts`: away from one card
the UNO flag is reset and the deadline cancelled; at exactly one undeclared
card a deadline is scheduled unless one is already running. -/
def onPlayerHandChanged (g : Game) (pid : String) : Game :=
  match g.getPlayerById pid with
  | none => g
  | some player =>
    if player.hand.length ≠ 1 then
      clearUnoTimer (updatePlayerById g pid fun p => { p with hasCalledUno := false }) pid
    else if player.hasCalledUno then
      clearUnoTimer g pid
    else if g.unoTimers.contains pid then g
    else { g with unoTimers := g.unoTimers ++ [pid] }

/-- JS index arithmetic `(i + dir + n) % n` (operands keep `%` nonnegative
for every state the engine reaches). -/
def jsIndexStep (i : Nat) (dir : Int) (n : Nat) : Nat :=
  (((i : Int) + dir + (n : Int)) % (n : Int)).toNat

/-- Mirrors `getNextPlayerIndex`. -/
def Game.getNextPlayerIndex (g : Game) : Nat :=
  jsIndexStep g.currentPlayerIndex g.turnDirection g.players.length

/-- The bomb-availability scan of `playerCanRespondToPendingDraw`: some
identity group (same color/type/value) of the hand reaches four cards. -/
def hasBombInHand (player : Player) : Bool :=
  player.hand.any fun c => 4 ≤ player.hand.countP fun x => cardsAreIdentical x c

/-- Mirrors `playerCanRespondToPendingDraw` from `src/game.ts`. -/
def playerCanRespondToPendingDraw (g : Game) (player : Player) : Bool :=
  (if g.pendingDrawType == some CardType.wildDrawFour then
    player.hand.any fun c => c.type == CardType.wildDrawFour
  else
    player.hand.any fun c => c.type == CardType.drawTwo || c.type == CardType.wildDrawFour)
  || hasBombInHand player

/-- Mirrors `endGame` (timers torn down, phase terminal). -/
def endGame (g : Game) (_winnerId : String) : Game :=
  { g with gamePhase := .ended, unoTimers := [] }

/-- One iteration of the draw loop in `drawCardsForPlayer`: reshuffle the
flattened discard history when the pile is empty, stop when no card is
available anywhere, otherwise pop from the end of the draw pile into the
player's hand. -/
def drawLoop (g : Game) (pid : String) : Nat → Game
  | 0 => g
  | n + 1 =>
    let g1 :=
      if g.deck.isEmpty then
        if g.discardPile.isEmpty then g
        else { g with deck := shuffleDeck g.rand g.discardPile.flatten, discardPile := [] }
      else g
    if g1.deck.isEmpty then g1
    else
      let card := g1.deck.getLastD default
      let g2 := updatePlayerById { g1 with deck := g1.deck.dropLast } pid
        fun p => { p with hand := p.hand ++ [card] }
      drawLoop g2 pid n

/-- Mirrors `drawCardsForPlayer` from `src/game.ts` (the draw loop followed
by the `onPlayerHandChanged` notification). -/
def drawCardsForPlayer (g : Game) (pid : String) (count : Nat) : Game :=
  onPlayerHandChanged (drawLoop g pid count) pid

/-- The expiry callback of the UNO deadline timer: it deletes its own map
entries, then re-validates the player's current state before applying the
two-card penalty. Only an armed timer can fire. -/
def unoTimerFire (g : Game) (pid : String) : Game :=
  if g.unoTimers.contains pid then
    let g1 := clearUnoTimer g pid
    if g1.gamePhase ≠ GamePhase.playing then g1
    else
      match g1.getPlayerById pid with
      | none => g1
      | some latest =>
        if ¬ latest.hasCalledUno ∧ latest.hand.length = 1 then
          drawCardsForPlayer g1 pid 2
        else g1
  else g

/-! ## Turn control and card effects -/

/-- The mark `players[nextIndex].isSkipped = true` used by SKIP effects. -/
def setSkippedAt (players : List Player) (idx : Nat) : List Player :=
  players.set idx { players.getD idx default with isSkipped := true }

/-- The inner scan of `nextTurn`: starting at `idx`, consume and clear the
one-shot skip flag of up to `k` candidate seats in sequence, stopping at
the first non-skipped seat. -/
def consumeSkips (dir : Int) : List Player → Nat → Nat → Nat × List Player
  | players, idx, 0 => (idx, players)
  | players, idx, k + 1 =>
    let cand := players.getD idx default
    if cand.isSkipped then
      let players' := players.set idx { cand with isSkipped := false }
      consumeSkips dir players' (jsIndexStep idx dir players'.length) k
    else (idx, players)

/-- The body of the bounded `safety` loop of `nextTurn`: land on the next
non-skipped seat; while a pending draw penalty is outstanding and that seat
cannot respond, force the accumulated draw on it and advance again. -/
def nextTurnLoop (g : Game) : Nat → Game
  | 0 => g
  | fuel + 1 =>
    let scan := consumeSkips g.turnDirection g.players g.getNextPlayerIndex g.players.length
    let g1 := { g with players := scan.2, currentPlayerIndex := scan.1 }
    if 0 < g1.pendingDrawCount then
      let current := g1.players.getD g1.currentPlayerIndex default
      if playerCanRespondToPendingDraw g1 current then g1
      else
        let count := g1.pendingDrawCount
        let g2 := { g1 with pendingDrawCount := 0, pendingDrawType := none }
        nextTurnLoop (drawCardsForPlayer g2 current.id count) fuel
    else g1

/-- Mirrors `nextTurn` from `src/game.ts` (the safety bound of the source
loop is `players.length + 2`). -/
def nextTurn (g : Game) : Game :=
  if g.players.length == 0 then g
  else nextTurnLoop g (g.players.length + 2)

/-- One card's effect inside `applyCardEffects`: SKIP flags the next seat;
REVERSE flips direction and, with exactly two seats, also flags the next
seat; DRAW_TWO and WILD_DRAW_FOUR only accumulate the pending penalty;
wilds pin the chosen color. (The source's `player` argument feeds logging
only.) -/
def applyOneEffect (g : Game) (card : Card) (chosenColor : Option CardColor) : Game :=
  match card.type with
  | .skip =>
    { g with players := setSkippedAt g.players g.getNextPlayerIndex }
  | .reverse =>
    let gr := { g with turnDirection := g.turnDirection * -1 }
    if gr.players.length == 2 then
      { gr with players := setSkippedAt gr.players gr.getNextPlayerIndex }
    else gr
  | .drawTwo =>
    { g with pendingDrawCount := g.pendingDrawCount + 2
             pendingDrawType := some CardType.drawTwo }
  | .wild =>
    match chosenColor with
    | some col => { g with currentColor := some col }
    | none => g
  | .wildDrawFour =>
    let gc := match chosenColor with
      | some col => { g with currentColor := some col }
      | none => g
    { gc with pendingDrawCount := gc.pendingDrawCount + 4
              pendingDrawType := some CardType.wildDrawFour }
  | .number => g

/-- Mirrors `applyCardEffects` from `src/game.ts` (iterates the played
cards in order). -/
def applyCardEffects (g : Game) (cards : List Card) (chosenColor : Option CardColor) : Game :=
  cards.foldl (fun acc c => applyOneEffect acc c chosenColor) g

/-! ## Hand classification (`identifyHandType` and helpers) -/

/-- Adjacent strict +1 chain check (`numbers[i] === numbers[i-1] + 1`). -/
def chainConsecutive : List Int → Bool
  | [] => true
  | [_] => true
  | a :: b :: rest => (b == a + 1) && chainConsecutive (b :: rest)

/-- Mirrors `isStraight`: only number cards, sorted parsed values strictly
consecutive. A `NaN` value (unparseable string) always breaks the
consecutive check in JS at these lengths, modelled by the `none` branch. -/
def isStraight (cards : List Card) : Bool :=
  let numberCards := cards.filter fun c => c.type == CardType.number
  if numberCards.length != cards.length then false
  else
    match cards.mapM (fun c => jsParseInt c.value) with
    | none => false
    | some vals => chainConsecutive (vals.mergeSort fun a b => a ≤ b)

/-- Mirrors `isConsecutivePairs`: every parsed value occurs exactly twice,
values consecutive, and the pairs cover the hand. A `NaN` value makes the
source return `false` at every call length, modelled by the `none` branch. -/
def isConsecutivePairs (cards : List Card) : Bool :=
  if cards.any (fun c => c.type != CardType.number) then false
  else
    match cards.mapM (fun c => jsParseInt c.value) with
    | none => false
    | some vals =>
      let keys := vals.eraseDups.mergeSort fun a b => a ≤ b
      (keys.all fun v => vals.count v == 2) && chainConsecutive keys &&
        (keys.length * 2 == cards.length)

/-- Mirrors `isAirplane` (exactly three of every value, values
consecutive, triples cover the hand). -/
def isAirplane (cards : List Card) : Bool :=
  if cards.any (fun c => c.type != CardType.number) then false
  else
    match cards.mapM (fun c => jsParseInt c.value) with
    | none => false
    | some vals =>
      let keys := vals.eraseDups.mergeSort fun a b => a ≤ b
      (keys.all fun v => vals.count v == 3) && chainConsecutive keys &&
        (keys.length * 3 == cards.length)

/-- Mirrors `isFullHouse`: exactly two value groups sized 2 and 3. The JS
`Map` groups `NaN` keys together, modelled by grouping on `Option Int`. -/
def isFullHouse (cards : List Card) : Bool :=
  if cards.any (fun c => c.type != CardType.number) then false
  else
    let vals := cards.map fun c => jsParseInt c.value
    let keys := vals.eraseDups
    keys.length == 2 &&
      (keys.map fun k => vals.count k).mergeSort (fun a b => a ≤ b) == [2, 3]

/-- Mirrors `identifyHandType` from `src/game.ts`. -/
def identifyHandType (cards : List Card) : Option HandType :=
  if cards.length == 0 then none
  else if cards.length == 1 then some HandType.single
  else
    let allSame := cards.all fun c => cardsAreIdentical c (cards.headD default)
    if allSame && (cards.length == 2 || cards.length == 3) then
      if (cards.headD default).type != CardType.number then none
      else if cards.length == 2 then some HandType.pair
      else some HandType.triple
    else if allSame && 4 ≤ cards.length then some HandType.bomb
    else if cards.length == 5 && isFullHouse cards then some HandType.fullHouse
    else if 5 ≤ cards.length && isStraight cards then some HandType.straight
    else if 6 ≤ cards.length && cards.length % 2 == 0 && isConsecutivePairs cards then
      some HandType.consecutivePairs
    else if 6 ≤ cards.length && cards.length % 3 == 0 && isAirplane cards then
      some HandType.airplane
    else none

/-! ## Play legality (`isValidPlay` and helpers) -/

/-- The `currentColor ?? (last.color !== WILD ? last.color : null)` fallback. -/
def activeColorFor (g : Game) (last : Card) : Option CardColor :=
  match g.currentColor with
  | some c => some c
  | none => if last.color != CardColor.wild then some last.color else none

/-- `played.color === activeColor` where `activeColor` may be `null`. -/
def colorMatches (oc : Option CardColor) (c : CardColor) : Bool :=
  match oc with
  | some col => c == col
  | none => false

/-- Mirrors `isValidSinglePlay` from `src/game.ts`: wilds always legal;
after a wild only the pinned color; otherwise match the active color or
the last card's exact value (numbers) or type (specials). -/
def isValidSinglePlay (g : Game) (played last : Card) : Bool :=
  if played.type == CardType.wild || played.type == CardType.wildDrawFour then true
  else
    let activeColor := activeColorFor g last
    if last.type == CardType.wild || last.type == CardType.wildDrawFour then
      colorMatches activeColor played.color
    else if colorMatches activeColor played.color then true
    else if last.type == CardType.number then
      played.type == CardType.number && played.value == last.value
    else played.type == last.type

/-- Mirrors `isValidGroupPlay` (PAIR/TRIPLE follow the active color only,
wilds aside). -/
def isValidGroupPlay (g : Game) (played last : Card) : Bool :=
  if played.type == CardType.wild || played.type == CardType.wildDrawFour then true
  else
    match activeColorFor g last with
    | none => false
    | some col => played.color == col

/-- Mirrors `compareGroups`. -/
def compareGroups (g : Game) (played last : List Card) : Bool :=
  isValidGroupPlay g (played.headD default) (last.headD default)

/-- Mirrors `compareSequences` (format only: hand type plus length). -/
def compareSequences (played last : List Card) : Bool :=
  played.length == last.length

/-- Mirrors `compareBombs` (longer bomb wins, equal length compares card
power). -/
def compareBombs (played last : List Card) : Bool :=
  if played.length != last.length then decide (last.length < played.length)
  else jsGt (getCardPower (played.headD default)) (getCardPower (last.headD default))

/-- Mirrors `isValidPlay` from `src/game.ts` (its trailing duplicated
switch is unreachable in the source — every prior branch returns — and is
therefore not part of the embedding). -/
def isValidPlay (g : Game) (playedCards lastCards : List Card) (handType : HandType) : Bool :=
  if !g.hasActiveRound || lastCards.isEmpty then true
  else if handType == HandType.bomb then
    if g.lastPlayedHandType != some HandType.bomb then true
    else compareBombs playedCards lastCards
  else
    match g.lastPlayedHandType with
    | none => true
    | some lastType =>
      if lastType == HandType.single || lastType == HandType.pair
          || lastType == HandType.triple then
        let activeColor := activeColorFor g (lastCards.headD default)
        match handType with
        | .single => isValidSinglePlay g (playedCards.headD default) (lastCards.headD default)
        | .pair | .triple => compareGroups g playedCards lastCards
        | .fullHouse | .straight | .consecutivePairs | .airplane =>
          activeColor.isSome && !playedCards.isEmpty &&
            playedCards.all fun c =>
              c.color != CardColor.wild && colorMatches activeColor c.color
        | _ => false
      else if lastType != handType then false
      else
        match handType with
        | .fullHouse => playedCards.length == lastCards.length
        | .straight | .consecutivePairs | .airplane => compareSequences playedCards lastCards
        | _ => false

/-! ## Round reset, discard-pile surgery and claim arbitration -/

/-- Mirrors `startNewRoundWithLeader`. -/
def startNewRoundWithLeader (g : Game) (leaderId : String) : Game :=
  let g1 := { g with
    hasActiveRound := false, passCount := 0, lastPlayedHand := [],
    lastPlayedHandType := none, lastPlayedBy := none, currentColor := none,
    pendingDrawCount := 0, pendingDrawType := none, pendingEffect := none }
  match g1.players.findIdx? (fun p => p.id == leaderId) with
  | some i => { g1 with currentPlayerIndex := i }
  | none => g1

/-- The backwards scan of `removeCardFromDiscardPile`: latest discard group
first, splice the card out, drop the group if it becomes empty. -/
def removeCardFromDiscardPileAux : List (List Card) → String → List (List Card) × Bool
  | [], _ => ([], false)
  | grp :: rest, cid =>
    let tailRes := removeCardFromDiscardPileAux rest cid
    if tailRes.2 then (grp :: tailRes.1, true)
    else
      match grp.findIdx? (fun c => c.id == cid) with
      | none => (grp :: rest, false)
      | some i =>
        let grp' := grp.eraseIdx i
        (if grp'.isEmpty then rest else grp' :: rest, true)

/-- Mirrors `removeCardFromDiscardPile`. -/
def removeCardFromDiscardPile (g : Game) (cid : String) : Game :=
  { g with discardPile := (removeCardFromDiscardPileAux g.discardPile cid).1 }

/-- Mirrors `resolvePendingEffectNoClaim`: tear the claim window down,
give the turn back to the player of the single card, re-pin its color
for non-wilds, apply its effect and advance. -/
def resolvePendingEffectNoClaim (g : Game) : Game :=
  let g1 := { g with
    actionTimeoutActive := false, pendingActions := [],
    claimQueue := [], claimQueueIndex := 0 }
  match g1.pendingEffect with
  | none => g1
  | some pending =>
    let g2 := { g1 with pendingEffect := none }
    let g3 := match g2.players.findIdx? (fun p => p.id == pending.playedById) with
      | some i => { g2 with currentPlayerIndex := i }
      | none => g2
    let g4 := if pending.card.type != CardType.wild
        && pending.card.type != CardType.wildDrawFour then
        { g3 with currentColor := some pending.card.color }
      else g3
    nextTurn (applyCardEffects g4 [pending.card] pending.chosenColor)

/-- Mirrors `promptNextClaimCandidate`: past the end of the queue the
window dissolves and the pending effect resolves; otherwise the head
candidate is prompted (its actions exposed) and the timeout re-armed. -/
def promptNextClaimCandidate (g : Game) : Game :=
  let g1 := { g with actionTimeoutActive := false }
  if g1.claimQueue.length ≤ g1.claimQueueIndex then
    resolvePendingEffectNoClaim { g1 with
      pendingActions := [], claimQueue := [], claimQueueIndex := 0 }
  else
    let step := g1.claimQueue.getD g1.claimQueueIndex default
    { g1 with pendingActions := step.actions, actionTimeoutActive := true }

/-- The claim-window timeout callback (`setTimeout` body inside
`promptNextClaimCandidate`): clear the prompt, advance the cursor, prompt
the next entry. Only an armed timeout can fire. -/
def claimTimeoutFire (g : Game) : Game :=
  if g.actionTimeoutActive then
    promptNextClaimCandidate { g with
      pendingActions := [], claimQueueIndex := g.claimQueueIndex + 1,
      actionTimeoutActive := false }
  else g

/-- The order in which `findPotentialActions` visits the other seats:
`players.length - 1` seats starting at the next seat, following the turn
direction. -/
def claimOrder (g : Game) : List Nat :=
  (List.range (g.players.length - 1)).map fun k =>
    (((g.getNextPlayerIndex : Int) + k * g.turnDirection + g.players.length)
      % (g.players.length : Int)).toNat

/-- The first pass of `findPotentialActions`: per visited seat holding at
least 3 (resp. exactly 2) copies of the played card, record a GANG (resp.
PENG) candidate, skipping the player of the card. -/
def scanGangPeng (g : Game) (card : Card) (playedById : String) :
    List (String × PotentialAction) × List (String × PotentialAction) :=
  (claimOrder g).foldl
    (fun acc idx =>
      let player := g.players.getD idx default
      if player.id == playedById then acc
      else
        let identicalInHand := player.hand.filter fun c => cardsAreIdentical c card
        if 3 ≤ identicalInHand.length then
          (acc.1 ++ [(player.id,
            { type := ClaimType.gang, playerId := player.id
              cards := identicalInHand.take 3, targetCard := card })], acc.2)
        else if 2 ≤ identicalInHand.length then
          (acc.1, acc.2 ++ [(player.id,
            { type := ClaimType.peng, playerId := player.id
              cards := identicalInHand.take 2, targetCard := card })])
        else acc)
    ([], [])

/-- `sameColorCards.find(c => parseInt(c.value) === target)!` -/
def findByValue (cards : List Card) (target : Int) : Card :=
  (cards.find? fun c => jsParseInt c.value == some target).getD default

/-- The CHI scan of `findPotentialActions`: only the next seat, only for a
number card, checking the three consecutive completions in the played
card's color. (A `NaN` card value never satisfies any `includes` test.) -/
def chiOptionsFor (g : Game) (card : Card) (playedById : String) : List PotentialAction :=
  match g.players.get? g.getNextPlayerIndex with
  | none => []
  | some nextPlayer =>
    if nextPlayer.id != playedById && card.type == CardType.number then
      match jsParseInt card.value with
      | none => []
      | some cardValue =>
        let sameColorCards := nextPlayer.hand.filter fun c =>
          c.color == card.color && c.type == CardType.number
        let values := sameColorCards.map fun c => jsParseInt c.value
        let has := fun (t : Int) => values.contains (some t)
        let mk := fun (a b : Int) =>
          { type := ClaimType.chi, playerId := nextPlayer.id
            cards := [findByValue sameColorCards a, findByValue sameColorCards b]
            targetCard := card : PotentialAction }
        (if has (cardValue - 1) && has (cardValue - 2) then
          [mk (cardValue - 2) (cardValue - 1)] else []) ++
        (if has (cardValue - 1) && has (cardValue + 1) then
          [mk (cardValue - 1) (cardValue + 1)] else []) ++
        (if has (cardValue + 1) && has (cardValue + 2) then
          [mk (cardValue + 1) (cardValue + 2)] else [])
    else []

/-- Association-list lookup used for the candidate maps. -/
def lookupBy (l : List (String × PotentialAction)) (pid : String) : Option PotentialAction :=
  (l.find? fun e => e.1 == pid).map fun e => e.2

/-- The queue-flattening passes of `findPotentialActions`: all GANG
candidates in visiting order, then PENG candidates excluding GANG holders,
then CHI candidates excluding GANG/PENG holders. -/
def buildClaimQueue (g : Game) (gangBy pengBy : List (String × PotentialAction))
    (chiBy : List (String × List PotentialAction)) : List ClaimStep :=
  ((claimOrder g).foldl (fun acc idx =>
    match g.players.get? idx with
    | none => acc
    | some p =>
      match lookupBy gangBy p.id with
      | some a => acc ++ [{ playerId := p.id, actions := [a] }]
      | none => acc) [])
  ++ ((claimOrder g).foldl (fun acc idx =>
    match g.players.get? idx with
    | none => acc
    | some p =>
      if (lookupBy gangBy p.id).isSome then acc
      else
        match lookupBy pengBy p.id with
        | some a => acc ++ [{ playerId := p.id, actions := [a] }]
        | none => acc) [])
  ++ ((claimOrder g).foldl (fun acc idx =>
    match g.players.get? idx with
    | none => acc
    | some p =>
      if (lookupBy gangBy p.id).isSome || (lookupBy pengBy p.id).isSome then acc
      else
        match (chiBy.find? fun e => e.1 == p.id).map (fun e => e.2) with
        | some actions =>
          if actions.isEmpty then acc
          else acc ++ [{ playerId := p.id, actions := actions }]
        | none => acc) [])

/-- Mirrors `findPotentialActions` from `src/game.ts`; the returned flag
says whether a claim window opened. -/
def findPotentialActions (g : Game) (card : Card) (playedById : String) : Game × Bool :=
  let g1 := { g with pendingActions := [], claimQueue := [], claimQueueIndex := 0 }
  let scan := scanGangPeng g1 card playedById
  let chiOpts := chiOptionsFor g1 card playedById
  let chiBy : List (String × List PotentialAction) :=
    match chiOpts with
    | [] => []
    | a :: _ => [(a.playerId, chiOpts)]
  let queue := buildClaimQueue g1 scan.1 scan.2 chiBy
  let g2 := { g1 with claimQueue := queue }
  if queue.isEmpty then (g2, false)
  else (promptNextClaimCandidate g2, true)

/-! ## Action handlers -/

/-- The reason a handler rejects an action (each constructor corresponds
to one rejection message of the source). -/
inductive RejectReason where
  | playerNotFound
  | waitingClaimWindow
  | notYourTurn
  | skippedPlayer
  | missingCards
  | invalidHandType
  | wildNeedsColor
  | pendingDrawMismatch
  | invalidPlay
  | noClaimAvailable
  | chiNeedsCards
  | chiNotCandidate
  | removeFailed
  | unoWrongHandSize
deriving DecidableEq, Repr

/-- Whether a handler processed the action or rejected it. -/
inductive ActionOutcome where
  | accepted
  | rejected (reason : RejectReason)
deriving DecidableEq, Repr

/-- Mirrors `parseSelectedColor` (an empty string is falsy in JS, hence
`null`; otherwise the uppercased English names, falling back to the raw
enum string values). -/
def parseSelectedColor (selectedColor : Option String) : Option CardColor :=
  match selectedColor with
  | none => none
  | some s =>
    if s.isEmpty then none
    else
      let normalized := String.mk
        ((((s.data.dropWhile Char.isWhitespace).reverse.dropWhile
          Char.isWhitespace).reverse).map Char.toUpper)
      if normalized == "RED" then some CardColor.red
      else if normalized == "YELLOW" then some CardColor.yellow
      else if normalized == "BLUE" then some CardColor.blue
      else if normalized == "GREEN" then some CardColor.green
      else if s == "红" then some CardColor.red
      else if s == "黄" then some CardColor.yellow
      else if s == "蓝" then some CardColor.blue
      else if s == "绿" then some CardColor.green
      else if s == "万能" then some CardColor.wild
      else none

/-- Mirrors `handleDeclareUno` (declaring with a hand size other than one
is rejected; re-declaring is a silent no-op). -/
def handleDeclareUno (g : Game) (pid : String) : Game × ActionOutcome :=
  match g.getPlayerById pid with
  | none => (g, .rejected .playerNotFound)
  | some player =>
    if player.hand.length ≠ 1 then (g, .rejected .unoWrongHandSize)
    else if player.hasCalledUno then (g, .accepted)
    else
      let g1 := updatePlayerById g pid fun p => { p with hasCalledUno := true }
      (clearUnoTimer g1 pid, .accepted)

/-- Mirrors `handleDrawCard`: out of turn is rejected; with a pending
penalty a draw accepts the whole accumulated count, otherwise one card. -/
def handleDrawCard (g : Game) (pid : String) : Game × ActionOutcome :=
  if (g.players.getD g.currentPlayerIndex default).id != pid then
    (g, .rejected .notYourTurn)
  else if 0 < g.pendingDrawCount then
    let count := g.pendingDrawCount
    let g1 := { g with pendingDrawCount := 0, pendingDrawType := none }
    (nextTurn (drawCardsForPlayer g1 pid count), .accepted)
  else (nextTurn (drawCardsForPlayer g pid 1), .accepted)

/-- Mirrors `handlePass` from `src/game.ts`: silently ignored out of turn;
a skip-flagged player consumes the flag and the turn moves on; a pending
penalty is accepted in full; otherwise draw one card and either advance
(shedding-phase round) or count the pass toward a combo-round reset. -/
def handlePass (g : Game) (pid : String) : Game × ActionOutcome :=
  if (g.players.getD g.currentPlayerIndex default).id != pid then
    (g, .rejected .notYourTurn)
  else
    match g.getPlayerById pid with
    | none => (g, .rejected .playerNotFound)
    | some player =>
      if player.isSkipped then
        (nextTurn (updatePlayerById g pid fun p => { p with isSkipped := false }), .accepted)
      else if 0 < g.pendingDrawCount then
        let count := g.pendingDrawCount
        let g1 := { g with pendingDrawCount := 0, pendingDrawType := none }
        (nextTurn (drawCardsForPlayer g1 pid count), .accepted)
      else
        let g1 := drawCardsForPlayer g pid 1
        if g1.hasActiveRound && (g1.lastPlayedHandType == some HandType.single
            || g1.lastPlayedHandType == some HandType.pair
            || g1.lastPlayedHandType == some HandType.triple) then
          (nextTurn g1, .accepted)
        else
          let g2 := { g1 with passCount := g1.passCount + 1 }
          if g2.players.length - 1 ≤ g2.passCount && g2.lastPlayedBy.isSome then
            match g2.lastPlayedBy with
            | some leaderId => (startNewRoundWithLeader g2 leaderId, .accepted)
            | none => (nextTurn g2, .accepted)
          else (nextTurn g2, .accepted)

/-- The acceptance tail of `handlePlayCards` (source lines 437-494):
remove the cards, install them as the table hand, let a bomb override the
pending chain, pin the color for non-single hands, end the game on an
emptied hand, notify the UNO tracker, and either open the claim window
(singles) or apply the effect and advance. -/
def acceptPlayCards (g : Game) (pid : String) (cards : List Card)
    (handType : HandType) (chosenColor : Option CardColor) : Game :=
  let g1 := updatePlayerById g pid fun p => (removeCardsFromHand p cards).1
  let g2 := { g1 with
    lastPlayedHand := cards, lastPlayedHandType := some handType,
    lastPlayedBy := some pid, discardPile := g1.discardPile ++ [cards],
    hasActiveRound := true, passCount := 0 }
  let g3 := if 0 < g2.pendingDrawCount && handType == HandType.bomb then
      { g2 with pendingDrawCount := 0, pendingDrawType := none }
    else g2
  let g4 :=
    if handType != HandType.single then
      if handType == HandType.straight || handType == HandType.consecutivePairs
          || handType == HandType.airplane || handType == HandType.fullHouse then
        { g3 with currentColor := none }
      else if !cards.isEmpty && (cards.headD default).color != CardColor.wild then
        { g3 with currentColor := some (cards.headD default).color }
      else g3
    else g3
  let handLen := ((g4.getPlayerById pid).map fun p => p.hand.length).getD 0
  if handLen == 0 then endGame g4 pid
  else
    let g5 := onPlayerHandChanged g4 pid
    if handType == HandType.single then
      let eff : PendingEffect :=
        { card := cards.headD default, playedById := pid
          chosenColor := chosenColor }
      let g6 := { g5 with pendingEffect := some eff }
      let res := findPotentialActions g6 (cards.headD default) pid
      if res.2 then res.1
      else resolvePendingEffectNoClaim res.1
    else
      nextTurn (applyCardEffects g5 [cards.headD default] chosenColor)

/-- Mirrors `handlePlayCards` from `src/game.ts` end to end: the rejection
ladder (turn, skip flag, hand membership, hand-type recognition, wild color
choice, pending-draw gating, play legality) and the acceptance path
(removal, table state, bomb override of the pending chain, color pinning
for non-singles, win check, UNO notification, claim window for singles,
effects plus turn advance otherwise). -/
def handlePlayCards (g : Game) (pid : String) (cards : List Card)
    (selectedColor : Option String) : Game × ActionOutcome :=
  if (g.players.getD g.currentPlayerIndex default).id != pid then
    (g, .rejected .notYourTurn)
  else
    match g.getPlayerById pid with
    | none => (g, .rejected .playerNotFound)
    | some player =>
      if player.isSkipped then
        let g1 := updatePlayerById g pid fun p => { p with isSkipped := false }
        (nextTurn g1, .rejected .skippedPlayer)
      else if !hasCards player cards then (g, .rejected .missingCards)
      else
        match identifyHandType cards with
        | none => (g, .rejected .invalidHandType)
        | some handType =>
          let chosenColor := parseSelectedColor selectedColor
          let hasWild := cards.any fun c =>
            c.type == CardType.wild || c.type == CardType.wildDrawFour
          if hasWild && chosenColor.isNone then (g, .rejected .wildNeedsColor)
          else
            let isBomb := handType == HandType.bomb
            let isDrawResponse := handType == HandType.single && cards.length == 1 &&
              (if g.pendingDrawType == some CardType.wildDrawFour then
                (cards.headD default).type == CardType.wildDrawFour
              else (cards.headD default).type == CardType.drawTwo
                || (cards.headD default).type == CardType.wildDrawFour)
            if 0 < g.pendingDrawCount && !isBomb && !isDrawResponse then
              (g, .rejected .pendingDrawMismatch)
            else if g.pendingDrawCount == 0
                && !(isValidPlay g cards g.lastPlayedHand handType) then
              (g, .rejected .invalidPlay)
            else
              (acceptPlayCards g pid cards handType chosenColor, .accepted)

/-- `matchesById` from `handleChi`. -/
def matchesById (candidate selected : List Card) : Bool :=
  candidate.length == selected.length &&
    candidate.all fun c => selected.any fun s => !s.id.isEmpty && s.id == c.id

/-- One step of the used-flag scan of `matchesByIdentity`: mark the first
unused selected card identical to `c`. -/
def markFirstIdentical (c : Card) : List (Card × Bool) → Option (List (Card × Bool))
  | [] => none
  | (s, used) :: rest =>
    if !used && cardsAreIdentical c s then some ((s, true) :: rest)
    else (markFirstIdentical c rest).map fun r => (s, used) :: r

/-- The greedy matching loop of `matchesByIdentity`. -/
def identityMatchLoop : List Card → List (Card × Bool) → Bool
  | [], _ => true
  | c :: cs, pool =>
    match markFirstIdentical c pool with
    | none => false
    | some pool' => identityMatchLoop cs pool'

/-- `matchesByIdentity` from `handleChi`. -/
def matchesByIdentity (candidate selected : List Card) : Bool :=
  candidate.length == selected.length &&
    identityMatchLoop candidate (selected.map fun s => (s, false))

/-- The meld sort of `handleChi` (stable, numeric values ascending, any
pair involving a non-numeric value left in place). -/
def sortMeld (cards : List Card) : List Card :=
  cards.mergeSort fun a b =>
    match jsParseInt a.value, jsParseInt b.value with
    | some av, some bv => av ≤ bv
    | _, _ => true

/-- Mirrors `handleChi` from `src/game.ts`. -/
def handleChi (g : Game) (pid : String) (cards : List Card) : Game × ActionOutcome :=
  let chiOptions := g.pendingActions.filter fun a =>
    a.playerId == pid && a.type == ClaimType.chi
  if chiOptions.isEmpty then (g, .rejected .noClaimAvailable)
  else
    let g1 := { g with actionTimeoutActive := false }
    let picked : Option PotentialAction :=
      if cards.isEmpty then
        if chiOptions.length == 1 then some (chiOptions.headD default) else none
      else
        match chiOptions.find? (fun a => matchesById a.cards cards) with
        | some a => some a
        | none => chiOptions.find? fun a => matchesByIdentity a.cards cards
    match picked with
    | none =>
      if cards.isEmpty then (g1, .rejected .chiNeedsCards)
      else (g1, .rejected .chiNotCandidate)
    | some chiCandidate =>
      match g1.getPlayerById pid with
      | none => (g1, .rejected .playerNotFound)
      | some player =>
        if !hasCards player chiCandidate.cards then (g1, .rejected .missingCards)
        else
          let rem := removeCardsFromHand player chiCandidate.cards
          if !rem.2 then
            (updatePlayerById g1 pid fun _ => rem.1, .rejected .removeFailed)
          else
            let meldedSet := sortMeld (chiCandidate.cards ++ [chiCandidate.targetCard])
            let g2 := updatePlayerById g1 pid fun _ =>
              { rem.1 with meldedCards := rem.1.meldedCards ++ [meldedSet] }
            let g3 := { g2 with
              pendingActions := [], pendingEffect := none,
              claimQueue := [], claimQueueIndex := 0 }
            let g4 := removeCardFromDiscardPile g3 chiCandidate.targetCard.id
            let g5 := startNewRoundWithLeader g4 pid
            (onPlayerHandChanged g5 pid, .accepted)

/-- The `for (const p of this.players) if (p.id !== player.id)
drawCardsForPlayer(p, n)` penalty loop of `handlePeng`/`handleGang`. -/
def drawForOthers (g : Game) (pid : String) (count : Nat) : Game :=
  (g.players.map fun p => p.id).foldl
    (fun acc qid => if qid != pid then drawCardsForPlayer acc qid count else acc) g

/-- Mirrors `handlePeng` from `src/game.ts`. -/
def handlePeng (g : Game) (pid : String) : Game × ActionOutcome :=
  match g.pendingActions.find? (fun a => a.playerId == pid && a.type == ClaimType.peng) with
  | none => (g, .rejected .noClaimAvailable)
  | some action =>
    let g1 := { g with actionTimeoutActive := false }
    match g1.getPlayerById pid with
    | none => (g1, .rejected .playerNotFound)
    | some player =>
      if !hasCards player action.cards then (g1, .rejected .missingCards)
      else
        let rem := removeCardsFromHand player action.cards
        if !rem.2 then
          (updatePlayerById g1 pid fun _ => rem.1, .rejected .removeFailed)
        else
          let g2 := updatePlayerById g1 pid fun _ =>
            { rem.1 with meldedCards :=
                rem.1.meldedCards ++ [action.cards ++ [action.targetCard]] }
          let g3 :=
            if action.targetCard.type == CardType.drawTwo then drawForOthers g2 pid 2
            else if action.targetCard.type == CardType.wildDrawFour then drawForOthers g2 pid 4
            else g2
          let g4 := { g3 with
            pendingActions := [], pendingEffect := none,
            claimQueue := [], claimQueueIndex := 0 }
          let g5 := removeCardFromDiscardPile g4 action.targetCard.id
          let g6 := startNewRoundWithLeader g5 pid
          (onPlayerHandChanged g6 pid, .accepted)

/-- Mirrors `handleGang` from `src/game.ts` (as `handlePeng`, plus the
claimant draws one replacement card before the new round starts). -/
def handleGang (g : Game) (pid : String) : Game × ActionOutcome :=
  match g.pendingActions.find? (fun a => a.playerId == pid && a.type == ClaimType.gang) with
  | none => (g, .rejected .noClaimAvailable)
  | some action =>
    let g1 := { g with actionTimeoutActive := false }
    match g1.getPlayerById pid with
    | none => (g1, .rejected .playerNotFound)
    | some player =>
      if !hasCards player action.cards then (g1, .rejected .missingCards)
      else
        let rem := removeCardsFromHand player action.cards
        if !rem.2 then
          (updatePlayerById g1 pid fun _ => rem.1, .rejected .removeFailed)
        else
          let g2 := updatePlayerById g1 pid fun _ =>
            { rem.1 with meldedCards :=
                rem.1.meldedCards ++ [action.cards ++ [action.targetCard]] }
          let g3 :=
            if action.targetCard.type == CardType.drawTwo then drawForOthers g2 pid 2
            else if action.targetCard.type == CardType.wildDrawFour then drawForOthers g2 pid 4
            else g2
          let g4 := { g3 with
            pendingActions := [], pendingEffect := none,
            claimQueue := [], claimQueueIndex := 0 }
          let g5 := removeCardFromDiscardPile g4 action.targetCard.id
          let g6 := drawCardsForPlayer g5 pid 1
          (startNewRoundWithLeader g6 pid, .accepted)

/-! ## Dispatch (`handlePlayerAction`) -/

/-- The seven action kinds of the `PlayerAction` interface. -/
inductive ActKind where
  | playCards
  | drawCard
  | chi
  | peng
  | gang
  | declareUno
  | pass
deriving DecidableEq, Repr, BEq

/-- An inbound `PlayerAction` message. -/
structure PlayerActionMsg where
  kind : ActKind
  cards : List Card
  selectedColor : Option String
  playerId : String
deriving Repr

/-- Mirrors `isClaimWindowActive` (`pendingEffect && actionTimeout &&
claimQueue.length > 0`). -/
def isClaimWindowActive (g : Game) : Bool :=
  g.pendingEffect.isSome && g.actionTimeoutActive && !g.claimQueue.isEmpty

/-- Mirrors `getCurrentClaimPlayerId`. -/
def getCurrentClaimPlayerId (g : Game) : Option String :=
  if isClaimWindowActive g then (g.claimQueue.get? g.claimQueueIndex).map fun s => s.playerId
  else none

/-- Mirrors `handlePlayerAction` from `src/game.ts`: unknown players are
rejected; during a claim window only the prompted player's CHI/PENG/GANG
passes the gate; otherwise the action dispatches to its handler. -/
def handlePlayerAction (g : Game) (a : PlayerActionMsg) : Game × ActionOutcome :=
  match g.getPlayerById a.playerId with
  | none => (g, .rejected .playerNotFound)
  | some _ =>
    let gate :=
      if isClaimWindowActive g then
        let claimPlayerId := getCurrentClaimPlayerId g
        let isClaimAction := a.kind == ActKind.chi || a.kind == ActKind.peng
          || a.kind == ActKind.gang
        claimPlayerId.isNone || some a.playerId != claimPlayerId || !isClaimAction
      else false
    if gate then (g, .rejected .waitingClaimWindow)
    else
      match a.kind with
      | .playCards => handlePlayCards g a.playerId a.cards a.selectedColor
      | .drawCard => handleDrawCard g a.playerId
      | .chi => handleChi g a.playerId a.cards
      | .peng => handlePeng g a.playerId
      | .gang => handleGang g a.playerId
      | .declareUno => handleDeclareUno g a.playerId
      | .pass => handlePass g a.playerId

/-! ## Claim C9 -/

set_option maxRecDepth 40000 in
/-- C9: `createDeck` always returns exactly 368 cards with the fixed
multiplicities — per color four 0s, eight of each number 1–9, four each of
skip/reverse/draw-two, plus eight wilds and eight wild-draw-fours — and
`shuffleDeck` returns a permutation of its input (same cards, same length,
never a size change). -/
theorem createDeck_composition_and_shuffleDeck_perm :
    createDeck.length = 368
    ∧ (stdColors.all fun c =>
        (createDeck.countP (fun k =>
          k.color == c && k.type == CardType.number && k.value == "0") == 4) &&
        ((List.range 9).all fun n =>
          createDeck.countP (fun k =>
            k.color == c && k.type == CardType.number && k.value == toString (n + 1)) == 8) &&
        (createDeck.countP (fun k => k.color == c && k.type == CardType.skip) == 4) &&
        (createDeck.countP (fun k => k.color == c && k.type == CardType.reverse) == 4) &&
        (createDeck.countP (fun k => k.color == c && k.type == CardType.drawTwo) == 4)) = true
    ∧ createDeck.countP (fun k => k.type == CardType.wild) = 8
    ∧ createDeck.countP (fun k => k.type == CardType.wildDrawFour) = 8
    ∧ ∀ (rand : Nat → Nat) (deck : List Card),
        List.Perm (shuffleDeck rand deck) deck
        ∧ (shuffleDeck rand deck).length = deck.length := by
  refine ⟨by decide, by decide, by decide, by decide, fun rand deck => ?_⟩
  exact ⟨shuffleDeck_perm rand deck, (shuffleDeck_perm rand deck).length_eq⟩

/-! ## Claim C7 -/

/-- Two cards identical to a common card are identical to each other. -/
theorem cardsAreIdentical_common (x h c : Card)
    (hx : cardsAreIdentical x c = true) (hh : cardsAreIdentical h c = true) :
    cardsAreIdentical x h = true := by
  simp only [cardsAreIdentical, Bool.and_eq_true, beq_iff_eq] at hx hh ⊢
  exact ⟨⟨hx.1.1.trans hh.1.1.symm, hx.1.2.trans hh.1.2.symm⟩, hx.2.trans hh.2.symm⟩

/-- Under a common-identity hypothesis the `allSame` scan of
`identifyHandType` succeeds. -/
theorem allSame_of_common (cards : List Card) (c : Card)
    (hall : ∀ x ∈ cards, cardsAreIdentical x c = true) (hne : cards ≠ []) :
    (cards.all fun x => cardsAreIdentical x (cards.headD default)) = true := by
  match cards, hne with
  | h :: t, _ =>
    simp only [List.headD_cons, List.all_eq_true]
    intro x hx
    exact cardsAreIdentical_common x h c (hall x hx) (hall h (by simp))

/-- The head of a common-identity list shares the common card's type. -/
theorem headD_type_of_common (cards : List Card) (c : Card)
    (hall : ∀ x ∈ cards, cardsAreIdentical x c = true) (hne : cards ≠ []) :
    (cards.headD default).type = c.type := by
  match cards, hne with
  | h :: t, _ =>
    have hh := hall h (by simp)
    simp only [cardsAreIdentical, Bool.and_eq_true, beq_iff_eq] at hh
    simpa using hh.2

/-- C7: hand classification (`identifyHandType`) is total and
deterministic on any card list, and on a non-empty set of all-identical
cards (same color, type and value): size 2 classifies as PAIR and size 3
as TRIPLE exactly when the shared type is a plain number card (identical
special cards of size 2 or 3 classify as no valid hand), while size ≥ 4
always classifies as BOMB, never as PAIR or TRIPLE. -/
theorem identifyHandType_total_identical_classification :
    (∀ cards : List Card, identifyHandType cards = identifyHandType cards)
    ∧ ∀ (cards : List Card) (c : Card),
        (∀ x ∈ cards, cardsAreIdentical x c = true) →
        (cards.length = 2 →
          identifyHandType cards =
            if c.type = CardType.number then some HandType.pair else none)
        ∧ (cards.length = 3 →
          identifyHandType cards =
            if c.type = CardType.number then some HandType.triple else none)
        ∧ (4 ≤ cards.length → identifyHandType cards = some HandType.bomb) := by
  refine ⟨fun _ => rfl, fun cards c hall => ⟨?_, ?_, ?_⟩⟩
  · intro hlen
    have hne : cards ≠ [] := by intro h; rw [h] at hlen; simp at hlen
    have hsame := allSame_of_common cards c hall hne
    have hht := headD_type_of_common cards c hall hne
    simp only [identifyHandType, hlen, hsame, hht]
    by_cases hc : c.type = CardType.number <;> simp [hc]
  · intro hlen
    have hne : cards ≠ [] := by intro h; rw [h] at hlen; simp at hlen
    have hsame := allSame_of_common cards c hall hne
    have hht := headD_type_of_common cards c hall hne
    simp only [identifyHandType, hlen, hsame, hht]
    by_cases hc : c.type = CardType.number <;> simp [hc]
  · intro hlen
    have hne : cards ≠ [] := by intro h; rw [h] at hlen; simp at hlen
    have hsame := allSame_of_common cards c hall hne
    have h0 : (cards.length == 0) = false := by
      simp only [beq_eq_false_iff_ne]; omega
    have h1 : (cards.length == 1) = false := by
      simp only [beq_eq_false_iff_ne]; omega
    have h2 : (cards.length == 2) = false := by
      simp only [beq_eq_false_iff_ne]; omega
    have h3 : (cards.length == 3) = false := by
      simp only [beq_eq_false_iff_ne]; omega
    have h4 : decide (4 ≤ cards.length) = true := decide_eq_true hlen
    simp only [identifyHandType, h0, h1, h2, h3, h4, hsame]
    simp

/-- Concrete instantiation of the C7 theorem: four identical red number 5
cards classify as BOMB, two identical red skips classify as nothing. -/
theorem identifyHandType_total_identical_classification_witness :
    identifyHandType (List.replicate 4
      { color := CardColor.red, value := "5", type := CardType.number, id := "w" })
      = some HandType.bomb
    ∧ identifyHandType (List.replicate 2
      { color := CardColor.red, value := "跳过", type := CardType.skip, id := "w" })
      = none := by
  constructor
  · exact (identifyHandType_total_identical_classification.2
      (List.replicate 4
        { color := CardColor.red, value := "5", type := CardType.number, id := "w" })
      { color := CardColor.red, value := "5", type := CardType.number, id := "w" }
      (by decide)).2.2 (by decide)
  · have := (identifyHandType_total_identical_classification.2
      (List.replicate 2
        { color := CardColor.red, value := "跳过", type := CardType.skip, id := "w" })
      { color := CardColor.red, value := "跳过", type := CardType.skip, id := "w" }
      (by decide)).1 (by decide)
    simpa using this

/-! ## Concrete scenario fixtures -/

/-- Concrete card builder for scenario states. -/
def mkCard (c : CardColor) (v : String) (ty : CardType) (i : String) : Card :=
  { color := c, value := v, type := ty, id := i }

/-- A connected player with the given hand. -/
def mkPlayer (pid : String) (hand : List Card) : Player :=
  { id := pid, name := pid, hand := hand, hasCalledUno := false
    meldedCards := [], isSkipped := false, isConnected := true }

/-- A mid-game state template: PLAYING phase, seat 0 to act, ascending
turn order, no active round and no pending state. -/
def baseState (players : List Player) (deck : List Card) : Game :=
  { players := players, deck := deck, discardPile := []
    currentPlayerIndex := 0, turnDirection := 1, gamePhase := .playing
    lastPlayedHand := [], lastPlayedHandType := none, lastPlayedBy := none
    currentColor := none, pendingDrawCount := 0, pendingDrawType := none
    pendingEffect := none, pendingActions := [], actionTimeoutActive := false
    claimQueue := [], claimQueueIndex := 0, hasActiveRound := false
    passCount := 0, unoTimers := [], rand := fun _ => 0 }

/-! ## Claim C1 -/

/-- Seat 0's opening card: a red number 5. -/
def c1Red5 : Card := mkCard .red "5" .number "c1r5"

/-- Seat 1's same-color lower card: a red number 3. -/
def c1Red3 : Card := mkCard .red "3" .number "c1r3"

/-- Seat 1's cross-color equal card: a yellow number 5. -/
def c1Yellow5 : Card := mkCard .yellow "5" .number "c1y5"

/-- The two-player game of the C1 scenario, no active round, seat 0 to act. -/
def c1Start : Game := baseState
  [mkPlayer "s0" [c1Red5, mkCard .blue "7" .number "c1b7", mkCard .green "2" .number "c1g2"],
   mkPlayer "s1" [c1Red3, c1Yellow5, mkCard .blue "1" .number "c1b1"]]
  [mkCard .green "9" .number "c1d1"]

/-- The state after seat 0's accepted opening play of the red 5 (no claim
candidates exist, so the claim window resolves immediately and the turn
passes to seat 1 with the active color pinned to red). -/
def c1AfterOpen : Game := (handlePlayCards c1Start "s0" [c1Red5] none).1

/-- C1 counterexample: the claim says seat 1's SINGLE red 3 (same color as
the active color, lower power) is rejected, but the engine accepts it —
`isValidSinglePlay` allows any card matching the active color regardless
of power. -/
theorem c1_counterexample_red3_accepted :
    (handlePlayCards c1AfterOpen "s1" [c1Red3] none).2 = ActionOutcome.accepted := by
  decide

/-- C1 (amended): seat 0's opening SINGLE red 5 is accepted; afterwards
seat 1's SINGLE red 3 is ALSO accepted (any active-color match is legal,
power is not compared), and seat 1's SINGLE yellow 5 (different color,
equal value) is accepted. -/
theorem c1_amended_follow_plays :
    (handlePlayCards c1Start "s0" [c1Red5] none).2 = ActionOutcome.accepted
    ∧ (handlePlayCards c1AfterOpen "s1" [c1Red3] none).2 = ActionOutcome.accepted
    ∧ (handlePlayCards c1AfterOpen "s1" [c1Yellow5] none).2 = ActionOutcome.accepted
    ∧ isValidSinglePlay c1AfterOpen c1Red3 c1Red5 = true
    ∧ isValidSinglePlay c1AfterOpen c1Yellow5 c1Red5 = true := by
  refine ⟨by decide, by decide, by decide, by decide, by decide⟩

/-! ## Frame lemmas for hand mutation and drawing -/

/-- Hand length of the first player carrying `pid` (the object the
handlers mutate), `0` when absent. -/
def handLenOf (g : Game) (pid : String) : Nat :=
  ((g.getPlayerById pid).map fun p => p.hand.length).getD 0

theorem updateFirst_map_proj {α : Type} (π : Player → α) (l : List Player) (pid : String)
    (f : Player → Player) (hf : ∀ p, π (f p) = π p) :
    (updateFirst l pid f).map π = l.map π := by
  induction l with
  | nil => rfl
  | cons p rest ih =>
    simp only [updateFirst]
    split
    · simp [hf]
    · simp [ih]

theorem updateFirst_length (l : List Player) (pid : String) (f : Player → Player) :
    (updateFirst l pid f).length = l.length := by
  induction l with
  | nil => rfl
  | cons p rest ih =>
    simp only [updateFirst]
    split
    · simp
    · simp [ih]

theorem find?_updateFirst (l : List Player) (pid qid : String) (f : Player → Player)
    (hf : ∀ p, (f p).id = p.id) :
    (updateFirst l pid f).find? (fun p => p.id == qid) =
      (l.find? fun p => p.id == qid).map fun p => if p.id = pid then f p else p := by
  induction l with
  | nil => rfl
  | cons p rest ih =>
    simp only [updateFirst]
    split
    next hp =>
      have hpp : p.id = pid := by simpa using hp
      by_cases hq : (p.id == qid) = true
      · rw [List.find?_cons_of_pos rest (show ((fun x : Player => x.id == qid) (f p)) = true by simp [hf, hq]),
          List.find?_cons_of_pos rest (show ((fun x : Player => x.id == qid) p) = true by simp [hq])]
        simp [hpp]
      · rw [List.find?_cons_of_neg rest (show ¬ ((fun x : Player => x.id == qid) (f p)) = true by simp [hf]; simpa using hq),
          List.find?_cons_of_neg rest (show ¬ ((fun x : Player => x.id == qid) p) = true by simpa using hq)]
        have hne : qid ≠ pid := fun h => absurd (by simp [hpp, h]) hq
        cases hfind : rest.find? (fun x : Player => x.id == qid) with
        | none => simp [hfind]
        | some a =>
          have ha : a.id = qid := by simpa using (List.find?_some hfind)
          have hane : a.id ≠ pid := by rw [ha]; exact hne
          simp [hfind, hane]
    next hp =>
      have hpp : p.id ≠ pid := by simpa using hp
      by_cases hq : (p.id == qid) = true
      · rw [List.find?_cons_of_pos (updateFirst rest pid f) (show ((fun x : Player => x.id == qid) p) = true by simp [hq]),
          List.find?_cons_of_pos rest (show ((fun x : Player => x.id == qid) p) = true by simp [hq])]
        simp [hpp]
      · rw [List.find?_cons_of_neg (updateFirst rest pid f) (show ¬ ((fun x : Player => x.id == qid) p) = true by simpa using hq),
          List.find?_cons_of_neg rest (show ¬ ((fun x : Player => x.id == qid) p) = true by simpa using hq)]
        exact ih


/-- The game-state components untouched by hand-change notifications and
by in-budget draws (everything except deck, discard pile, hands, UNO
flags/timers and claim-window bookkeeping). -/
structure FrameEq (g g' : Game) : Prop where
  ids : g'.players.map (fun p => p.id) = g.players.map fun p => p.id
  skips : g'.players.map (fun p => p.isSkipped) = g.players.map fun p => p.isSkipped
  curIdx : g'.currentPlayerIndex = g.currentPlayerIndex
  dir : g'.turnDirection = g.turnDirection
  pendCount : g'.pendingDrawCount = g.pendingDrawCount
  pendType : g'.pendingDrawType = g.pendingDrawType
  phase : g'.gamePhase = g.gamePhase
  active : g'.hasActiveRound = g.hasActiveRound
  lastType : g'.lastPlayedHandType = g.lastPlayedHandType
  lastBy : g'.lastPlayedBy = g.lastPlayedBy
  passes : g'.passCount = g.passCount
  lastHand : g'.lastPlayedHand = g.lastPlayedHand
  color : g'.currentColor = g.currentColor

theorem frameEq_refl (g : Game) : FrameEq g g :=
  ⟨rfl, rfl, rfl, rfl, rfl, rfl, rfl, rfl, rfl, rfl, rfl, rfl, rfl⟩

theorem frameEq_trans {g1 g2 g3 : Game} (a : FrameEq g1 g2) (b : FrameEq g2 g3) :
    FrameEq g1 g3 :=
  ⟨b.ids.trans a.ids, b.skips.trans a.skips, b.curIdx.trans a.curIdx,
   b.dir.trans a.dir, b.pendCount.trans a.pendCount, b.pendType.trans a.pendType,
   b.phase.trans a.phase, b.active.trans a.active, b.lastType.trans a.lastType,
   b.lastBy.trans a.lastBy, b.passes.trans a.passes, b.lastHand.trans a.lastHand,
   b.color.trans a.color⟩

theorem frame_updatePlayerById (g : Game) (pid : String) (f : Player → Player)
    (hid : ∀ p, (f p).id = p.id) (hskip : ∀ p, (f p).isSkipped = p.isSkipped) :
    FrameEq g (updatePlayerById g pid f) := by
  refine ⟨?_, ?_, rfl, rfl, rfl, rfl, rfl, rfl, rfl, rfl, rfl, rfl, rfl⟩
  · exact updateFirst_map_proj (fun p => p.id) g.players pid f hid
  · exact updateFirst_map_proj (fun p => p.isSkipped) g.players pid f hskip

theorem handLenOf_updatePlayerById_other (g : Game) (pid qid : String)
    (f : Player → Player) (hid : ∀ p, (f p).id = p.id) (hne : qid ≠ pid) :
    handLenOf (updatePlayerById g pid f) qid = handLenOf g qid := by
  unfold handLenOf Game.getPlayerById updatePlayerById
  rw [find?_updateFirst _ _ _ _ hid]
  cases hfind : g.players.find? (fun p => p.id == qid) with
  | none => rfl
  | some a =>
    have ha : a.id = qid := by simpa using List.find?_some hfind
    simp [ha, hne]

theorem handLenOf_updatePlayerById_handkeep (g : Game) (pid qid : String)
    (f : Player → Player) (hid : ∀ p, (f p).id = p.id)
    (hhand : ∀ p, (f p).hand = p.hand) :
    handLenOf (updatePlayerById g pid f) qid = handLenOf g qid := by
  unfold handLenOf Game.getPlayerById updatePlayerById
  rw [find?_updateFirst _ _ _ _ hid]
  cases hfind : g.players.find? (fun p => p.id == qid) with
  | none => rfl
  | some a =>
    by_cases hc : a.id = pid <;> simp [hc, hhand]

theorem handLenOf_updatePlayerById_self (g : Game) (pid : String)
    (f : Player → Player) (hid : ∀ p, (f p).id = p.id) :
    handLenOf (updatePlayerById g pid f) pid =
      ((g.getPlayerById pid).map fun p => (f p).hand.length).getD 0 := by
  simp only [handLenOf, Game.getPlayerById, updatePlayerById,
    find?_updateFirst _ _ _ _ hid]
  cases hfind : g.players.find? (fun p => p.id == pid) with
  | none => rfl
  | some a =>
    have ha : a.id = pid := by simpa using List.find?_some hfind
    simp [ha]

theorem handLenOf_append_card (g : Game) (pid : String) (card : Card)
    (hsome : (g.getPlayerById pid).isSome = true) :
    handLenOf (updatePlayerById g pid fun p => { p with hand := p.hand ++ [card] }) pid
      = handLenOf g pid + 1 := by
  rw [handLenOf_updatePlayerById_self g pid
    (fun p => { p with hand := p.hand ++ [card] }) fun p => rfl]
  cases hfind : g.getPlayerById pid with
  | none => rw [hfind] at hsome; simp at hsome
  | some a => simp [handLenOf, hfind]

theorem getPlayerById_updatePlayerById_isSome (g : Game) (pid qid : String)
    (f : Player → Player) (hid : ∀ p, (f p).id = p.id) :
    ((updatePlayerById g pid f).getPlayerById qid).isSome
      = (g.getPlayerById qid).isSome := by
  simp only [Game.getPlayerById, updatePlayerById, find?_updateFirst _ _ _ _ hid]
  cases g.players.find? (fun p => p.id == qid) <;> simp

theorem frame_unoTimersOnly (g : Game) (ts : List String) :
    FrameEq g { g with unoTimers := ts } :=
  ⟨rfl, rfl, rfl, rfl, rfl, rfl, rfl, rfl, rfl, rfl, rfl, rfl, rfl⟩

theorem onPlayerHandChanged_facts (g : Game) (pid : String) :
    FrameEq g (onPlayerHandChanged g pid)
    ∧ (onPlayerHandChanged g pid).deck = g.deck
    ∧ (onPlayerHandChanged g pid).discardPile = g.discardPile
    ∧ (∀ qid, handLenOf (onPlayerHandChanged g pid) qid = handLenOf g qid)
    ∧ ∀ qid, ((onPlayerHandChanged g pid).getPlayerById qid).isSome
        = (g.getPlayerById qid).isSome := by
  unfold onPlayerHandChanged
  cases g.getPlayerById pid with
  | none => exact ⟨frameEq_refl g, rfl, rfl, fun _ => rfl, fun _ => rfl⟩
  | some player =>
    dsimp only
    split
    · refine ⟨frameEq_trans (frame_updatePlayerById g pid
          (fun p => { p with hasCalledUno := false }) (fun p => rfl) fun p => rfl)
        (frame_unoTimersOnly _ _), rfl, rfl, fun qid => ?_, fun qid => ?_⟩
      · show handLenOf { updatePlayerById g pid _ with unoTimers := _ } qid = _
        have h1 : handLenOf (updatePlayerById g pid
            fun p => { p with hasCalledUno := false }) qid = handLenOf g qid :=
          handLenOf_updatePlayerById_handkeep g pid qid _ (fun p => rfl) fun p => rfl
        simpa [handLenOf, Game.getPlayerById] using h1
      · have h1 := getPlayerById_updatePlayerById_isSome g pid qid
          (fun p => { p with hasCalledUno := false }) fun p => rfl
        simpa [Game.getPlayerById] using h1
    · split
      · exact ⟨frame_unoTimersOnly _ _, rfl, rfl, fun _ => rfl, fun _ => rfl⟩
      · split
        · exact ⟨frameEq_refl _, rfl, rfl, fun _ => rfl, fun _ => rfl⟩
        · exact ⟨frame_unoTimersOnly _ _, rfl, rfl, fun _ => rfl, fun _ => rfl⟩


theorem frame_deckOnly (g : Game) (d : List Card) : FrameEq g { g with deck := d } :=
  ⟨rfl, rfl, rfl, rfl, rfl, rfl, rfl, rfl, rfl, rfl, rfl, rfl, rfl⟩

theorem drawLoop_succ_nonempty (g : Game) (pid : String) (n : Nat)
    (h : g.deck.isEmpty = false) :
    drawLoop g pid (n + 1) =
      drawLoop (updatePlayerById { g with deck := g.deck.dropLast } pid
        fun p => { p with hand := p.hand ++ [g.deck.getLastD default] }) pid n := by
  conv_lhs => rw [drawLoop]
  simp only [h, Bool.false_eq_true, if_false]

theorem drawLoop_facts (pid : String) (n : Nat) : ∀ (g : Game), n ≤ g.deck.length →
    FrameEq g (drawLoop g pid n)
    ∧ (drawLoop g pid n).deck.length = g.deck.length - n
    ∧ (drawLoop g pid n).discardPile = g.discardPile
    ∧ ((g.getPlayerById pid).isSome = true →
        handLenOf (drawLoop g pid n) pid = handLenOf g pid + n)
    ∧ (∀ qid, qid ≠ pid → handLenOf (drawLoop g pid n) qid = handLenOf g qid)
    ∧ ((drawLoop g pid n).getPlayerById pid).isSome = (g.getPlayerById pid).isSome := by
  induction n with
  | zero =>
    intro g _
    exact ⟨frameEq_refl g, rfl, rfl, fun _ => rfl, fun _ _ => rfl, rfl⟩
  | succ n ih =>
    intro g hdeck
    have hne : g.deck.isEmpty = false := by
      cases hd : g.deck with
      | nil => rw [hd] at hdeck; simp at hdeck
      | cons a t => rfl
    rw [drawLoop_succ_nonempty g pid n hne]
    have hlen2 : (updatePlayerById { g with deck := g.deck.dropLast } pid
        fun p => { p with hand := p.hand ++ [g.deck.getLastD default] }).deck.length
        = g.deck.length - 1 := by
      show g.deck.dropLast.length = g.deck.length - 1
      exact List.length_dropLast g.deck
    have hdeck2 : n ≤ (updatePlayerById { g with deck := g.deck.dropLast } pid
        fun p => { p with hand := p.hand ++ [g.deck.getLastD default] }).deck.length := by
      rw [hlen2]; omega
    obtain ⟨f1, d1, dis1, hs1, ho1, is1⟩ := ih _ hdeck2
    have fstep : FrameEq g (updatePlayerById { g with deck := g.deck.dropLast } pid
        fun p => { p with hand := p.hand ++ [g.deck.getLastD default] }) :=
      frameEq_trans (frame_deckOnly g g.deck.dropLast)
        (frame_updatePlayerById _ pid _ (fun p => rfl) fun p => rfl)
    have isStep : ((updatePlayerById { g with deck := g.deck.dropLast } pid
        fun p => { p with hand := p.hand ++ [g.deck.getLastD default] }).getPlayerById
          pid).isSome = (g.getPlayerById pid).isSome := by
      have := getPlayerById_updatePlayerById_isSome { g with deck := g.deck.dropLast }
        pid pid (fun p => { p with hand := p.hand ++ [g.deck.getLastD default] })
        fun p => rfl
      exact this
    refine ⟨frameEq_trans fstep f1, ?_, dis1, ?_, ?_, is1.trans isStep⟩
    · rw [d1, hlen2]; omega
    · intro hsome
      have hstep : handLenOf (updatePlayerById { g with deck := g.deck.dropLast } pid
          fun p => { p with hand := p.hand ++ [g.deck.getLastD default] }) pid
          = handLenOf g pid + 1 :=
        handLenOf_append_card { g with deck := g.deck.dropLast } pid
          (g.deck.getLastD default) hsome
      rw [hs1 (by rw [isStep]; exact hsome), hstep]
      omega
    · intro qid hq
      rw [ho1 qid hq]
      exact handLenOf_updatePlayerById_other { g with deck := g.deck.dropLast } pid qid
        _ (fun p => rfl) hq

theorem drawCards_facts (g : Game) (pid : String) (n : Nat)
    (hdeck : n ≤ g.deck.length) :
    FrameEq g (drawCardsForPlayer g pid n)
    ∧ (drawCardsForPlayer g pid n).deck.length = g.deck.length - n
    ∧ (drawCardsForPlayer g pid n).discardPile = g.discardPile
    ∧ ((g.getPlayerById pid).isSome = true →
        handLenOf (drawCardsForPlayer g pid n) pid = handLenOf g pid + n)
    ∧ (∀ qid, qid ≠ pid → handLenOf (drawCardsForPlayer g pid n) qid = handLenOf g qid)
    ∧ ((drawCardsForPlayer g pid n).getPlayerById pid).isSome
        = (g.getPlayerById pid).isSome := by
  obtain ⟨f1, d1, dis1, hs1, ho1, is1⟩ := drawLoop_facts pid n g hdeck
  obtain ⟨f2, d2, dis2, hl2, is2⟩ := onPlayerHandChanged_facts (drawLoop g pid n) pid
  unfold drawCardsForPlayer
  refine ⟨frameEq_trans f1 f2, by rw [d2, d1], by rw [dis2, dis1], ?_, ?_, ?_⟩
  · intro hsome
    rw [hl2 pid, hs1 hsome]
  · intro qid hq
    rw [hl2 qid, ho1 qid hq]
  · rw [is2 pid, is1]



theorem consumeSkips_not_skipped (dir : Int) (players : List Player) (i k : Nat)
    (h : (players.getD i default).isSkipped = false) :
    consumeSkips dir players i k = (i, players) := by
  cases k with
  | zero => rfl
  | succ k => simp only [consumeSkips, h, Bool.false_eq_true, if_false]

theorem jsIndexStep_lt (i : Nat) (dir : Int) (n : Nat) (hn : 0 < n) :
    jsIndexStep i dir n < n := by
  unfold jsIndexStep
  have hn' : (0 : Int) < (n : Int) := by exact_mod_cast hn
  have h1 : 0 ≤ ((i : Int) + dir + (n : Int)) % (n : Int) :=
    Int.emod_nonneg _ (by omega)
  have h2 : ((i : Int) + dir + (n : Int)) % (n : Int) < (n : Int) :=
    Int.emod_lt_of_pos _ hn'
  omega

theorem getD_isSkipped_false (players : List Player)
    (hall : ∀ p ∈ players, p.isSkipped = false) (i : Nat) :
    (players.getD i default).isSkipped = false := by
  by_cases hi : i < players.length
  · have hmem : players.getD i default ∈ players := by
      rw [List.getD_eq_getElem players default hi]
      exact List.getElem_mem hi
    exact hall _ hmem
  · rw [List.getD_eq_default players default (by omega)]
    rfl

theorem skips_false_of_map_eq {l l' : List Player}
    (hmap : l'.map (fun p => p.isSkipped) = l.map fun p => p.isSkipped)
    (hall : ∀ p ∈ l, p.isSkipped = false) : ∀ p ∈ l', p.isSkipped = false := by
  intro p hp
  have hmm : p.isSkipped ∈ l'.map fun p => p.isSkipped :=
    List.mem_map_of_mem _ hp
  rw [hmap] at hmm
  obtain ⟨q, hq, he⟩ := List.mem_map.mp hmm
  rw [← he]
  exact hall q hq

theorem length_eq_of_map_ids {l l' : List Player}
    (hmap : l'.map (fun p => p.id) = l.map fun p => p.id) :
    l'.length = l.length := by
  have := congrArg List.length hmap
  simpa using this

theorem getPlayerById_isSome_of_mem (g : Game) (p : Player)
    (hp : p ∈ g.players) : (g.getPlayerById p.id).isSome = true := by
  unfold Game.getPlayerById
  rw [List.find?_isSome]
  exact ⟨p, hp, by simp⟩



/-! ## Claim C3 -/

theorem nextTurnLoop_stop_step (g : Game) (fuel : Nat)
    (hall : ∀ p ∈ g.players, p.isSkipped = false)
    (hpend : g.pendingDrawCount = 0) :
    nextTurnLoop g (fuel + 1) = { g with currentPlayerIndex := g.getNextPlayerIndex } := by
  simp only [nextTurnLoop]
  rw [consumeSkips_not_skipped _ _ _ _ (getD_isSkipped_false _ hall _)]
  simp only [hpend]
  simp

theorem nextTurnLoop_forced_step (g : Game) (fuel : Nat)
    (hall : ∀ p ∈ g.players, p.isSkipped = false)
    (hpend : 0 < g.pendingDrawCount)
    (hcant : playerCanRespondToPendingDraw g
      (g.players.getD g.getNextPlayerIndex default) = false) :
    nextTurnLoop g (fuel + 1) =
      nextTurnLoop (drawCardsForPlayer
        { g with currentPlayerIndex := g.getNextPlayerIndex,
                 pendingDrawCount := 0, pendingDrawType := none }
        (g.players.getD g.getNextPlayerIndex default).id g.pendingDrawCount) fuel := by
  simp only [nextTurnLoop]
  rw [consumeSkips_not_skipped _ _ _ _ (getD_isSkipped_false _ hall _)]
  have hcant' : playerCanRespondToPendingDraw
      { g with currentPlayerIndex := g.getNextPlayerIndex }
      ({ g with currentPlayerIndex := g.getNextPlayerIndex }.players.getD
        { g with currentPlayerIndex := g.getNextPlayerIndex }.currentPlayerIndex
        default) = false := hcant
  simp only [hpend, if_pos, hcant', Bool.false_eq_true, if_false]

/-- C3: when the turn advances onto a player while `pendingDrawCount > 0`
and that player holds no qualifying response card (per
`playerCanRespondToPendingDraw`: no matching DRAW_TWO/WILD_DRAW_FOUR for
the pending type and no four identical cards for a bomb), the penalty is
applied automatically — the pending count resets to 0 with
`pendingDrawType` cleared, the player draws exactly the accumulated count,
and the turn advances again past them without prompting. (Stated for
states with no skip flags outstanding and a draw pile covering the
penalty.) -/
theorem c3_forced_draw_auto_resolution (g : Game)
    (hpos : 0 < g.players.length)
    (hall : ∀ p ∈ g.players, p.isSkipped = false)
    (hpend : 0 < g.pendingDrawCount)
    (hcant : playerCanRespondToPendingDraw g
      (g.players.getD g.getNextPlayerIndex default) = false)
    (hdeck : g.pendingDrawCount ≤ g.deck.length) :
    (nextTurn g).pendingDrawCount = 0
    ∧ (nextTurn g).pendingDrawType = none
    ∧ handLenOf (nextTurn g) (g.players.getD g.getNextPlayerIndex default).id
        = handLenOf g (g.players.getD g.getNextPlayerIndex default).id
          + g.pendingDrawCount
    ∧ (nextTurn g).currentPlayerIndex
        = jsIndexStep g.getNextPlayerIndex g.turnDirection g.players.length := by
  have hne0 : (g.players.length == 0) = false := by
    simp only [beq_eq_false_iff_ne]; omega
  have e0 : nextTurn g = nextTurnLoop g (g.players.length + 2) := by
    unfold nextTurn
    simp only [hne0, Bool.false_eq_true, if_false]
  have e1 : nextTurnLoop g (g.players.length + 2) =
      nextTurnLoop (drawCardsForPlayer
        { g with currentPlayerIndex := g.getNextPlayerIndex,
                 pendingDrawCount := 0, pendingDrawType := none }
        (g.players.getD g.getNextPlayerIndex default).id g.pendingDrawCount)
        (g.players.length + 1) :=
    nextTurnLoop_forced_step g (g.players.length + 1) hall hpend hcant
  obtain ⟨f3, d3, dis3, hs3, ho3, is3⟩ := drawCards_facts
    { g with currentPlayerIndex := g.getNextPlayerIndex,
             pendingDrawCount := 0, pendingDrawType := none }
    (g.players.getD g.getNextPlayerIndex default).id g.pendingDrawCount hdeck
  have hall3 : ∀ p ∈ (drawCardsForPlayer
      { g with currentPlayerIndex := g.getNextPlayerIndex,
               pendingDrawCount := 0, pendingDrawType := none }
      (g.players.getD g.getNextPlayerIndex default).id g.pendingDrawCount).players,
      p.isSkipped = false :=
    skips_false_of_map_eq f3.skips hall
  have hlen3 := length_eq_of_map_ids f3.ids
  have e2 : nextTurnLoop (drawCardsForPlayer
      { g with currentPlayerIndex := g.getNextPlayerIndex,
               pendingDrawCount := 0, pendingDrawType := none }
      (g.players.getD g.getNextPlayerIndex default).id g.pendingDrawCount)
      (g.players.length + 1) =
      { drawCardsForPlayer
          { g with currentPlayerIndex := g.getNextPlayerIndex,
                   pendingDrawCount := 0, pendingDrawType := none }
          (g.players.getD g.getNextPlayerIndex default).id g.pendingDrawCount with
        currentPlayerIndex := (drawCardsForPlayer
          { g with currentPlayerIndex := g.getNextPlayerIndex,
                   pendingDrawCount := 0, pendingDrawType := none }
          (g.players.getD g.getNextPlayerIndex default).id
          g.pendingDrawCount).getNextPlayerIndex } := by
    have hl : g.players.length + 1 = (drawCardsForPlayer
        { g with currentPlayerIndex := g.getNextPlayerIndex,
                 pendingDrawCount := 0, pendingDrawType := none }
        (g.players.getD g.getNextPlayerIndex default).id
        g.pendingDrawCount).players.length + 1 := by rw [hlen3]
    rw [hl]
    exact nextTurnLoop_stop_step _ _ hall3 (f3.pendCount.trans rfl)
  have hnlt : g.getNextPlayerIndex < g.players.length :=
    jsIndexStep_lt g.currentPlayerIndex g.turnDirection g.players.length hpos
  have hmem : g.players.getD g.getNextPlayerIndex default ∈ g.players := by
    rw [List.getD_eq_getElem g.players default hnlt]
    exact List.getElem_mem hnlt
  have hsome : (Game.getPlayerById
      { g with currentPlayerIndex := g.getNextPlayerIndex,
               pendingDrawCount := 0, pendingDrawType := none }
      (g.players.getD g.getNextPlayerIndex default).id).isSome = true :=
    getPlayerById_isSome_of_mem g (g.players.getD g.getNextPlayerIndex default) hmem
  have hidx3 : (drawCardsForPlayer
      { g with currentPlayerIndex := g.getNextPlayerIndex,
               pendingDrawCount := 0, pendingDrawType := none }
      (g.players.getD g.getNextPlayerIndex default).id
      g.pendingDrawCount).getNextPlayerIndex
      = jsIndexStep g.getNextPlayerIndex g.turnDirection g.players.length := by
    show jsIndexStep (drawCardsForPlayer
        { g with currentPlayerIndex := g.getNextPlayerIndex,
                 pendingDrawCount := 0, pendingDrawType := none }
        (g.players.getD g.getNextPlayerIndex default).id
        g.pendingDrawCount).currentPlayerIndex
      (drawCardsForPlayer
        { g with currentPlayerIndex := g.getNextPlayerIndex,
                 pendingDrawCount := 0, pendingDrawType := none }
        (g.players.getD g.getNextPlayerIndex default).id
        g.pendingDrawCount).turnDirection
      (drawCardsForPlayer
        { g with currentPlayerIndex := g.getNextPlayerIndex,
                 pendingDrawCount := 0, pendingDrawType := none }
        (g.players.getD g.getNextPlayerIndex default).id
        g.pendingDrawCount).players.length
      = jsIndexStep g.getNextPlayerIndex g.turnDirection g.players.length
    rw [f3.curIdx, f3.dir, hlen3]
  rw [e0, e1, e2]
  refine ⟨f3.pendCount.trans rfl, f3.pendType.trans rfl, ?_, hidx3⟩
  exact hs3 hsome

/-- Three-seat state with a stacked penalty of 6 (a +2 then a +4) pending,
seat B having just played, seat C next and holding neither a +4 nor four
identical cards. -/
def c3State : Game :=
  { baseState
      [mkPlayer "A" [mkCard .red "1" .number "c3a1"],
       mkPlayer "B" [mkCard .blue "1" .number "c3b1"],
       mkPlayer "C" [mkCard .green "1" .number "c3c1", mkCard .yellow "9" .number "c3c2"]]
      ((List.range 8).map fun i => mkCard .green (toString i) .number ("c3d" ++ toString i)) with
    currentPlayerIndex := 1, pendingDrawCount := 6,
    pendingDrawType := some CardType.wildDrawFour, hasActiveRound := true }

/-- Concrete instantiation of the C3 theorem: seat C is auto-forced to
draw all 6 stacked cards and the turn lands on seat A. -/
theorem c3_forced_draw_auto_resolution_witness :
    (0 < c3State.pendingDrawCount
      ∧ playerCanRespondToPendingDraw c3State
          (c3State.players.getD c3State.getNextPlayerIndex default) = false)
    ∧ (nextTurn c3State).pendingDrawCount = 0
    ∧ (nextTurn c3State).pendingDrawType = none
    ∧ handLenOf (nextTurn c3State) "C" = handLenOf c3State "C" + 6
    ∧ (nextTurn c3State).currentPlayerIndex = 0 := by
  have h := c3_forced_draw_auto_resolution c3State (by decide) (by decide)
    (by decide) (by decide) (by decide)
  exact ⟨⟨by decide, by decide⟩, h.1, h.2.1, h.2.2.1, h.2.2.2⟩



/-! ## Claim C5 -/

theorem handlePass_no_pending_shedding (g : Game) (pid : String) (player : Player)
    (hcur : (g.players.getD g.currentPlayerIndex default).id = pid)
    (hfind : g.getPlayerById pid = some player)
    (hskip : player.isSkipped = false)
    (hpend : g.pendingDrawCount = 0)
    (hdeck : 1 ≤ g.deck.length)
    (hpos : 0 < g.players.length)
    (hall : ∀ p ∈ g.players, p.isSkipped = false)
    (hAR : g.hasActiveRound = true)
    (hshed : g.lastPlayedHandType = some HandType.single
      ∨ g.lastPlayedHandType = some HandType.pair
      ∨ g.lastPlayedHandType = some HandType.triple) :
    (handlePass g pid).2 = ActionOutcome.accepted
    ∧ handLenOf (handlePass g pid).1 pid = handLenOf g pid + 1
    ∧ (handlePass g pid).1.hasActiveRound = true
    ∧ (handlePass g pid).1.lastPlayedHandType = g.lastPlayedHandType
    ∧ (handlePass g pid).1.passCount = g.passCount
    ∧ (handlePass g pid).1.currentPlayerIndex
        = jsIndexStep g.currentPlayerIndex g.turnDirection g.players.length := by
  obtain ⟨fd, dd, disd, hsd, hod, isd⟩ := drawCards_facts g pid 1 hdeck
  have hcond : ((drawCardsForPlayer g pid 1).hasActiveRound
      && ((drawCardsForPlayer g pid 1).lastPlayedHandType == some HandType.single
        || (drawCardsForPlayer g pid 1).lastPlayedHandType == some HandType.pair
        || (drawCardsForPlayer g pid 1).lastPlayedHandType == some HandType.triple)) = true := by
    rw [fd.active, fd.lastType, hAR]
    rcases hshed with h | h | h <;> simp [h]
  have h1 : (((g.players.getD g.currentPlayerIndex default).id != pid)) = false := by
    rw [hcur]
    simp
  have e : handlePass g pid = (nextTurn (drawCardsForPlayer g pid 1),
      ActionOutcome.accepted) := by
    unfold handlePass
    simp only [h1, Bool.false_eq_true, if_false, hfind, hskip, hpend, hcond]
    simp
  have hall1 : ∀ p ∈ (drawCardsForPlayer g pid 1).players, p.isSkipped = false :=
    skips_false_of_map_eq fd.skips hall
  have hlen1 : (drawCardsForPlayer g pid 1).players.length = g.players.length :=
    length_eq_of_map_ids fd.ids
  have e2 : nextTurn (drawCardsForPlayer g pid 1) =
      { drawCardsForPlayer g pid 1 with
        currentPlayerIndex := (drawCardsForPlayer g pid 1).getNextPlayerIndex } := by
    unfold nextTurn
    have hne0 : ((drawCardsForPlayer g pid 1).players.length == 0) = false := by
      simp only [beq_eq_false_iff_ne]
      omega
    simp only [hne0, Bool.false_eq_true, if_false]
    rw [show (drawCardsForPlayer g pid 1).players.length + 2
      = ((drawCardsForPlayer g pid 1).players.length + 1) + 1 from rfl]
    exact nextTurnLoop_stop_step _ _ hall1 (fd.pendCount.trans hpend)
  have hsome : (g.getPlayerById pid).isSome = true := by rw [hfind]; rfl
  rw [e, e2]
  refine ⟨rfl, hsd hsome, fd.active.trans hAR, fd.lastType, fd.passes, ?_⟩
  show jsIndexStep (drawCardsForPlayer g pid 1).currentPlayerIndex
    (drawCardsForPlayer g pid 1).turnDirection
    (drawCardsForPlayer g pid 1).players.length = _
  rw [fd.curIdx, fd.dir, hlen1]

theorem handlePass_pending_accepts_count (g : Game) (pid : String) (player : Player)
    (hcur : (g.players.getD g.currentPlayerIndex default).id = pid)
    (hfind : g.getPlayerById pid = some player)
    (hskip : player.isSkipped = false)
    (hpend : 0 < g.pendingDrawCount)
    (hdeck : g.pendingDrawCount ≤ g.deck.length)
    (hpos : 0 < g.players.length)
    (hall : ∀ p ∈ g.players, p.isSkipped = false) :
    (handlePass g pid).2 = ActionOutcome.accepted
    ∧ handLenOf (handlePass g pid).1 pid = handLenOf g pid + g.pendingDrawCount
    ∧ (handlePass g pid).1.pendingDrawCount = 0
    ∧ (handlePass g pid).1.pendingDrawType = none := by
  obtain ⟨fd, dd, disd, hsd, hod, isd⟩ := drawCards_facts
    { g with pendingDrawCount := 0, pendingDrawType := none } pid
    g.pendingDrawCount hdeck
  have h1 : (((g.players.getD g.currentPlayerIndex default).id != pid)) = false := by
    rw [hcur]; simp
  have e : handlePass g pid = (nextTurn (drawCardsForPlayer
      { g with pendingDrawCount := 0, pendingDrawType := none } pid
      g.pendingDrawCount), ActionOutcome.accepted) := by
    unfold handlePass
    simp only [h1, Bool.false_eq_true, if_false, hfind, hskip, hpend, if_pos]
  have hall1 : ∀ p ∈ (drawCardsForPlayer
      { g with pendingDrawCount := 0, pendingDrawType := none } pid
      g.pendingDrawCount).players, p.isSkipped = false :=
    skips_false_of_map_eq fd.skips hall
  have hlen1 := length_eq_of_map_ids fd.ids
  have e2 : nextTurn (drawCardsForPlayer
      { g with pendingDrawCount := 0, pendingDrawType := none } pid
      g.pendingDrawCount) =
      { drawCardsForPlayer { g with pendingDrawCount := 0, pendingDrawType := none }
          pid g.pendingDrawCount with
        currentPlayerIndex := (drawCardsForPlayer
          { g with pendingDrawCount := 0, pendingDrawType := none } pid
          g.pendingDrawCount).getNextPlayerIndex } := by
    unfold nextTurn
    have hne0 : ((drawCardsForPlayer
        { g with pendingDrawCount := 0, pendingDrawType := none } pid
        g.pendingDrawCount).players.length == 0) = false := by
      simp only [beq_eq_false_iff_ne]
      rw [hlen1]
      show g.players.length ≠ 0
      omega
    simp only [hne0, Bool.false_eq_true, if_false]
    rw [show (drawCardsForPlayer
        { g with pendingDrawCount := 0, pendingDrawType := none } pid
        g.pendingDrawCount).players.length + 2
      = ((drawCardsForPlayer
        { g with pendingDrawCount := 0, pendingDrawType := none } pid
        g.pendingDrawCount).players.length + 1) + 1 from rfl]
    exact nextTurnLoop_stop_step _ _ hall1 (fd.pendCount.trans rfl)
  have hsome : (Game.getPlayerById
      { g with pendingDrawCount := 0, pendingDrawType := none } pid).isSome = true := by
    show (g.getPlayerById pid).isSome = true
    rw [hfind]; rfl
  rw [e, e2]
  exact ⟨rfl, hsd hsome, fd.pendCount.trans rfl, fd.pendType.trans rfl⟩


/-- Two-seat shedding-phase state: a pending +2 penalty of 2 sits on the
current seat, which holds a +2 of its own but chooses to PASS. -/
def c5PendState : Game :=
  { baseState
      [mkPlayer "a" [mkCard .red "+2" .drawTwo "c5a1", mkCard .blue "3" .number "c5a2"],
       mkPlayer "b" [mkCard .green "1" .number "c5b1"]]
      [mkCard .green "5" .number "c5d1", mkCard .green "6" .number "c5d2",
       mkCard .green "7" .number "c5d3"] with
    pendingDrawCount := 2, pendingDrawType := some CardType.drawTwo,
    hasActiveRound := true, lastPlayedHandType := some HandType.single,
    lastPlayedBy := some "b" }

/-- Two-seat state whose current seat carries a one-shot skip flag. -/
def c5SkipState : Game :=
  { baseState
      [{ mkPlayer "a" [mkCard .blue "3" .number "c5s1"] with isSkipped := true },
       mkPlayer "b" [mkCard .green "1" .number "c5s2"]]
      [mkCard .green "5" .number "c5sd1"] with
    hasActiveRound := true, lastPlayedHandType := some HandType.single,
    lastPlayedBy := some "b" }

/-- C5 counterexample: the claim says every accepted PASS draws exactly
one card, but a PASS under a pending draw penalty is accepted and draws
the whole accumulated count (2 here), and a skip-flagged player's PASS is
accepted and draws nothing. -/
theorem c5_counterexample_pass_draw_counts :
    ((handlePass c5PendState "a").2 = ActionOutcome.accepted
      ∧ handLenOf (handlePass c5PendState "a").1 "a" = handLenOf c5PendState "a" + 2)
    ∧ (handlePass c5SkipState "a").2 = ActionOutcome.accepted
    ∧ handLenOf (handlePass c5SkipState "a").1 "a" = handLenOf c5SkipState "a" := by
  exact ⟨⟨by decide, by decide⟩, by decide, by decide⟩

/-- C5 (amended): an accepted PASS by the current player who is not
skip-flagged draws exactly one forced card when no draw penalty is
pending, and in a shedding-phase round (last hand type SINGLE, PAIR or
TRIPLE) the turn simply advances with no new round started; when a
penalty is pending, the accepted PASS instead draws the entire
accumulated count and clears the pending state (a skip-flagged pass only
consumes the flag). -/
theorem c5_amended_pass_draw_behavior :
    (∀ (g : Game) (pid : String) (player : Player),
      (g.players.getD g.currentPlayerIndex default).id = pid →
      g.getPlayerById pid = some player →
      player.isSkipped = false →
      g.pendingDrawCount = 0 →
      1 ≤ g.deck.length →
      0 < g.players.length →
      (∀ p ∈ g.players, p.isSkipped = false) →
      g.hasActiveRound = true →
      (g.lastPlayedHandType = some HandType.single
        ∨ g.lastPlayedHandType = some HandType.pair
        ∨ g.lastPlayedHandType = some HandType.triple) →
      (handlePass g pid).2 = ActionOutcome.accepted
      ∧ handLenOf (handlePass g pid).1 pid = handLenOf g pid + 1
      ∧ (handlePass g pid).1.hasActiveRound = true
      ∧ (handlePass g pid).1.lastPlayedHandType = g.lastPlayedHandType
      ∧ (handlePass g pid).1.passCount = g.passCount
      ∧ (handlePass g pid).1.currentPlayerIndex
          = jsIndexStep g.currentPlayerIndex g.turnDirection g.players.length)
    ∧ ∀ (g : Game) (pid : String) (player : Player),
      (g.players.getD g.currentPlayerIndex default).id = pid →
      g.getPlayerById pid = some player →
      player.isSkipped = false →
      0 < g.pendingDrawCount →
      g.pendingDrawCount ≤ g.deck.length →
      0 < g.players.length →
      (∀ p ∈ g.players, p.isSkipped = false) →
      (handlePass g pid).2 = ActionOutcome.accepted
      ∧ handLenOf (handlePass g pid).1 pid = handLenOf g pid + g.pendingDrawCount
      ∧ (handlePass g pid).1.pendingDrawCount = 0
      ∧ (handlePass g pid).1.pendingDrawType = none := by
  constructor
  · intro g pid player hcur hfind hskip hpend hdeck hpos hall hAR hshed
    exact handlePass_no_pending_shedding g pid player hcur hfind hskip hpend
      hdeck hpos hall hAR hshed
  · intro g pid player hcur hfind hskip hpend hdeck hpos hall
    exact handlePass_pending_accepts_count g pid player hcur hfind hskip hpend
      hdeck hpos hall

/-- Two-seat shedding-phase state with no pending penalty, used to
instantiate the amended C5 theorem. -/
def c5ShedState : Game :=
  { baseState
      [mkPlayer "a" [mkCard .blue "3" .number "c5w1"],
       mkPlayer "b" [mkCard .green "1" .number "c5w2"]]
      [mkCard .green "5" .number "c5wd1", mkCard .green "6" .number "c5wd2"] with
    hasActiveRound := true, lastPlayedHandType := some HandType.single,
    lastPlayedBy := some "b" }

/-- Concrete instantiation of the amended C5 theorem on both branches. -/
theorem c5_amended_pass_draw_behavior_witness :
    ((handlePass c5ShedState "a").2 = ActionOutcome.accepted
      ∧ handLenOf (handlePass c5ShedState "a").1 "a" = 2
      ∧ (handlePass c5ShedState "a").1.currentPlayerIndex = 1)
    ∧ (handlePass c5PendState "a").2 = ActionOutcome.accepted
    ∧ handLenOf (handlePass c5PendState "a").1 "a" = 4 := by
  have h1 := c5_amended_pass_draw_behavior.1 c5ShedState "a"
    (mkPlayer "a" [mkCard .blue "3" .number "c5w1"]) (by decide) (by decide)
    (by decide) (by decide) (by decide) (by decide) (by decide) (by decide)
    (by decide)
  have h2 := c5_amended_pass_draw_behavior.2 c5PendState "a"
    (mkPlayer "a" [mkCard .red "+2" .drawTwo "c5a1", mkCard .blue "3" .number "c5a2"])
    (by decide) (by decide) (by decide) (by decide) (by decide) (by decide)
    (by decide)
  refine ⟨⟨h1.1, ?_, ?_⟩, h2.1, ?_⟩
  · rw [h1.2.1]; decide
  · rw [h1.2.2.2.2.2]; decide
  · rw [h2.2.1]; decide


/-! ## Claim C2 -/

/-- Under a pending WILD_DRAW_FOUR penalty, an accepted `PLAY_CARDS` by the
current player must classify as a BOMB or as a single wild-draw-four
(`handlePlayCards` gate, game.ts:405-426). -/
theorem handlePlayCards_wildfour_gate (g : Game) (pid : String) (cards : List Card)
    (sc : Option String)
    (hty : g.pendingDrawType = some CardType.wildDrawFour)
    (hpend : 0 < g.pendingDrawCount)
    (hacc : (handlePlayCards g pid cards sc).2 = ActionOutcome.accepted) :
    identifyHandType cards = some HandType.bomb
    ∨ (identifyHandType cards = some HandType.single ∧ cards.length = 1
        ∧ (cards.headD default).type = CardType.wildDrawFour) := by
  rw [handlePlayCards.eq_def, hty] at hacc
  have hd : decide (0 < g.pendingDrawCount) = true := decide_eq_true hpend
  have hp0 : (g.pendingDrawCount == 0) = false := by
    simp only [beq_eq_false_iff_ne]
    omega
  simp only [hd, hp0, Bool.true_and, Bool.false_and, Bool.false_eq_true, if_false,
    beq_self_eq_true, if_true] at hacc
  repeat' (first | exact ActionOutcome.noConfusion hacc | split at hacc)
  rename_i lastType heq hwild hguard
  by_cases hb : (lastType == HandType.bomb) = true
  · left
    rw [heq, eq_of_beq hb]
  · right
    rw [Bool.not_eq_true] at hb
    by_cases hrest : (lastType == HandType.single && cards.length == 1 &&
        (cards.headD default).type == CardType.wildDrawFour) = true
    · simp only [Bool.and_eq_true] at hrest
      obtain ⟨⟨h11, h12⟩, h2⟩ := hrest
      exact ⟨by rw [heq, eq_of_beq h11], by simpa using h12, eq_of_beq h2⟩
    · rw [Bool.not_eq_true] at hrest
      refine absurd ?_ hguard
      rw [hb, hrest]
      rfl

/-- A red draw-two card for the C2 witness. -/
def c2Plus2 : Card := mkCard .red "+2" .drawTwo "c2p2"

/-- A wild-draw-four card for the C2 witness. -/
def c2Plus4 : Card := mkCard .wild "+4" .wildDrawFour "c2p4"

/-- Two-seat state with a pending wild-draw-four penalty of 4 on seat `a`,
whose hand holds a wild-draw-four, a draw-two and a number card. -/
def c2RespState : Game :=
  { baseState
      [mkPlayer "a" [c2Plus4, c2Plus2, mkCard .blue "3" .number "c2a2"],
       mkPlayer "b" [mkCard .green "1" .number "c2b1"]]
      [mkCard .green "5" .number "c2d1", mkCard .green "6" .number "c2d2"] with
    pendingDrawCount := 4, pendingDrawType := some CardType.wildDrawFour,
    hasActiveRound := true, lastPlayedHandType := some HandType.single,
    lastPlayedBy := some "b" }

/-- C2: playing a DRAW_TWO never draws any card immediately —
`applyCardEffects` only adds 2 to `pendingDrawCount` and sets
`pendingDrawType` to DRAW_TWO, leaving every other field (players, deck,
hands) untouched; playing a WILD_DRAW_FOUR adds 4 and sets the pending type
to WILD_DRAW_FOUR, likewise leaving players and deck untouched; and while a
WILD_DRAW_FOUR penalty is pending, an accepted PLAY_CARDS must be a BOMB or
a single WILD_DRAW_FOUR — in particular a plain single DRAW_TWO response is
always rejected. -/
theorem c2_draw_effects_accumulate_and_wildfour_gate :
    (∀ (g : Game) (card : Card) (cc : Option CardColor),
        card.type = CardType.drawTwo →
        applyCardEffects g [card] cc
          = { g with pendingDrawCount := g.pendingDrawCount + 2,
                     pendingDrawType := some CardType.drawTwo })
    ∧ (∀ (g : Game) (card : Card) (cc : Option CardColor),
        card.type = CardType.wildDrawFour →
        (applyCardEffects g [card] cc).pendingDrawCount = g.pendingDrawCount + 4
        ∧ (applyCardEffects g [card] cc).pendingDrawType = some CardType.wildDrawFour
        ∧ (applyCardEffects g [card] cc).players = g.players
        ∧ (applyCardEffects g [card] cc).deck = g.deck)
    ∧ (∀ (g : Game) (pid : String) (cards : List Card) (sc : Option String),
        g.pendingDrawType = some CardType.wildDrawFour →
        0 < g.pendingDrawCount →
        (handlePlayCards g pid cards sc).2 = ActionOutcome.accepted →
        identifyHandType cards = some HandType.bomb
        ∨ (identifyHandType cards = some HandType.single ∧ cards.length = 1
            ∧ (cards.headD default).type = CardType.wildDrawFour))
    ∧ (∀ (g : Game) (pid : String) (c : Card) (sc : Option String),
        g.pendingDrawType = some CardType.wildDrawFour →
        0 < g.pendingDrawCount →
        c.type = CardType.drawTwo →
        (handlePlayCards g pid [c] sc).2 ≠ ActionOutcome.accepted) := by
  refine ⟨?_, ?_, ?_, ?_⟩
  · intro g card cc h
    simp [applyCardEffects, applyOneEffect, h]
  · intro g card cc h
    rcases cc with _ | col <;> simp [applyCardEffects, applyOneEffect, h]
  · intro g pid cards sc hty hpend hacc
    exact handlePlayCards_wildfour_gate g pid cards sc hty hpend hacc
  · intro g pid c sc hty hpend hct hacc
    rcases handlePlayCards_wildfour_gate g pid [c] sc hty hpend hacc with hb | hs
    · simp [identifyHandType] at hb
    · rw [List.headD_cons, hct] at hs
      exact CardType.noConfusion hs.2.2

/-- C2 witness: the claim theorem instantiated at concrete inputs — the
draw-two effect on a fresh state, the wild-draw-four effect, the gate on an
accepted single wild-draw-four response, and the rejection of a plain
draw-two response under the pending wild-draw-four penalty. -/
theorem c2_draw_effects_accumulate_and_wildfour_gate_witness :
    (applyCardEffects (baseState [] []) [c2Plus2] none
      = { baseState [] [] with
            pendingDrawCount := (baseState [] []).pendingDrawCount + 2,
            pendingDrawType := some CardType.drawTwo })
    ∧ ((applyCardEffects (baseState [] []) [c2Plus4] none).pendingDrawCount
          = (baseState [] []).pendingDrawCount + 4
        ∧ (applyCardEffects (baseState [] []) [c2Plus4] none).pendingDrawType
          = some CardType.wildDrawFour
        ∧ (applyCardEffects (baseState [] []) [c2Plus4] none).players
          = (baseState [] []).players
        ∧ (applyCardEffects (baseState [] []) [c2Plus4] none).deck
          = (baseState [] []).deck)
    ∧ ((handlePlayCards c2RespState "a" [c2Plus4] (some "RED")).2 = ActionOutcome.accepted
        ∧ (identifyHandType [c2Plus4] = some HandType.bomb
            ∨ (identifyHandType [c2Plus4] = some HandType.single
                ∧ ([c2Plus4] : List Card).length = 1
                ∧ (([c2Plus4] : List Card).headD default).type = CardType.wildDrawFour)))
    ∧ (handlePlayCards c2RespState "a" [c2Plus2] none).2 ≠ ActionOutcome.accepted := by
  refine ⟨?_, ?_, ⟨by decide, ?_⟩, ?_⟩
  · exact c2_draw_effects_accumulate_and_wildfour_gate.1 (baseState [] []) c2Plus2 none rfl
  · exact c2_draw_effects_accumulate_and_wildfour_gate.2.1 (baseState [] []) c2Plus4 none rfl
  · exact c2_draw_effects_accumulate_and_wildfour_gate.2.2.1 c2RespState "a" [c2Plus4]
      (some "RED") (by decide) (by decide) (by decide)
  · exact c2_draw_effects_accumulate_and_wildfour_gate.2.2.2 c2RespState "a" c2Plus2
      none (by decide) (by decide) rfl


/-! ## Claim C6 -/

/-- Rejected `handleDeclareUno` calls return the state unchanged. -/
theorem handleDeclareUno_reject_frame (g : Game) (pid : String)
    (g' : Game) (r : RejectReason)
    (hp : handleDeclareUno g pid = (g', ActionOutcome.rejected r))
    (hskip : r ≠ RejectReason.skippedPlayer)
    (hrm : r ≠ RejectReason.removeFailed) :
    g' = { g with actionTimeoutActive := g'.actionTimeoutActive } := by
  rw [handleDeclareUno.eq_def] at hp
  repeat' (first | split at hp | (dsimp only at hp; split at hp))
  all_goals (first
    | exact ActionOutcome.noConfusion (congrArg Prod.snd hp)
    | exact absurd (ActionOutcome.rejected.inj (congrArg Prod.snd hp)).symm hrm
    | exact absurd (ActionOutcome.rejected.inj (congrArg Prod.snd hp)).symm hskip
    | (injection hp with h1 h2
       subst h1
       rfl))

/-- Rejected `handleDrawCard` calls return the state unchanged. -/
theorem handleDrawCard_reject_frame (g : Game) (pid : String)
    (g' : Game) (r : RejectReason)
    (hp : handleDrawCard g pid = (g', ActionOutcome.rejected r))
    (hskip : r ≠ RejectReason.skippedPlayer)
    (hrm : r ≠ RejectReason.removeFailed) :
    g' = { g with actionTimeoutActive := g'.actionTimeoutActive } := by
  rw [handleDrawCard.eq_def] at hp
  repeat' (first | split at hp | (dsimp only at hp; split at hp))
  all_goals (first
    | exact ActionOutcome.noConfusion (congrArg Prod.snd hp)
    | exact absurd (ActionOutcome.rejected.inj (congrArg Prod.snd hp)).symm hrm
    | exact absurd (ActionOutcome.rejected.inj (congrArg Prod.snd hp)).symm hskip
    | (injection hp with h1 h2
       subst h1
       rfl))

/-- Rejected `handlePass` calls return the state unchanged. -/
theorem handlePass_reject_frame (g : Game) (pid : String)
    (g' : Game) (r : RejectReason)
    (hp : handlePass g pid = (g', ActionOutcome.rejected r))
    (hskip : r ≠ RejectReason.skippedPlayer)
    (hrm : r ≠ RejectReason.removeFailed) :
    g' = { g with actionTimeoutActive := g'.actionTimeoutActive } := by
  rw [handlePass.eq_def] at hp
  repeat' (first | split at hp | (dsimp only at hp; split at hp))
  all_goals (first
    | exact ActionOutcome.noConfusion (congrArg Prod.snd hp)
    | exact absurd (ActionOutcome.rejected.inj (congrArg Prod.snd hp)).symm hrm
    | exact absurd (ActionOutcome.rejected.inj (congrArg Prod.snd hp)).symm hskip
    | (injection hp with h1 h2
       subst h1
       rfl))

/-- Rejected `handlePlayCards` calls other than the skip-flag consumption
return the state unchanged. -/
theorem handlePlayCards_reject_frame (g : Game) (pid : String)
    (cards : List Card) (sc : Option String)
    (g' : Game) (r : RejectReason)
    (hp : handlePlayCards g pid cards sc = (g', ActionOutcome.rejected r))
    (hskip : r ≠ RejectReason.skippedPlayer)
    (hrm : r ≠ RejectReason.removeFailed) :
    g' = { g with actionTimeoutActive := g'.actionTimeoutActive } := by
  rw [handlePlayCards.eq_def] at hp
  repeat' (first | split at hp | (dsimp only at hp; split at hp))
  all_goals (first
    | exact ActionOutcome.noConfusion (congrArg Prod.snd hp)
    | exact absurd (ActionOutcome.rejected.inj (congrArg Prod.snd hp)).symm hrm
    | exact absurd (ActionOutcome.rejected.inj (congrArg Prod.snd hp)).symm hskip
    | (injection hp with h1 h2
       subst h1
       rfl))

/-- Rejected `handleChi` calls other than a failed removal change at most
the claim-timeout flag. -/
theorem handleChi_reject_frame (g : Game) (pid : String) (cards : List Card)
    (g' : Game) (r : RejectReason)
    (hp : handleChi g pid cards = (g', ActionOutcome.rejected r))
    (hskip : r ≠ RejectReason.skippedPlayer)
    (hrm : r ≠ RejectReason.removeFailed) :
    g' = { g with actionTimeoutActive := g'.actionTimeoutActive } := by
  rw [handleChi.eq_def] at hp
  repeat' (first | split at hp | (dsimp only at hp; split at hp))
  all_goals (first
    | exact ActionOutcome.noConfusion (congrArg Prod.snd hp)
    | exact absurd (ActionOutcome.rejected.inj (congrArg Prod.snd hp)).symm hrm
    | exact absurd (ActionOutcome.rejected.inj (congrArg Prod.snd hp)).symm hskip
    | (injection hp with h1 h2
       subst h1
       rfl))

/-- Rejected `handlePeng` calls other than a failed removal change at most
the claim-timeout flag. -/
theorem handlePeng_reject_frame (g : Game) (pid : String)
    (g' : Game) (r : RejectReason)
    (hp : handlePeng g pid = (g', ActionOutcome.rejected r))
    (hskip : r ≠ RejectReason.skippedPlayer)
    (hrm : r ≠ RejectReason.removeFailed) :
    g' = { g with actionTimeoutActive := g'.actionTimeoutActive } := by
  rw [handlePeng.eq_def] at hp
  repeat' (first | split at hp | (dsimp only at hp; split at hp))
  all_goals (first
    | exact ActionOutcome.noConfusion (congrArg Prod.snd hp)
    | exact absurd (ActionOutcome.rejected.inj (congrArg Prod.snd hp)).symm hrm
    | exact absurd (ActionOutcome.rejected.inj (congrArg Prod.snd hp)).symm hskip
    | (injection hp with h1 h2
       subst h1
       rfl))

/-- Rejected `handleGang` calls other than a failed removal change at most
the claim-timeout flag. -/
theorem handleGang_reject_frame (g : Game) (pid : String)
    (g' : Game) (r : RejectReason)
    (hp : handleGang g pid = (g', ActionOutcome.rejected r))
    (hskip : r ≠ RejectReason.skippedPlayer)
    (hrm : r ≠ RejectReason.removeFailed) :
    g' = { g with actionTimeoutActive := g'.actionTimeoutActive } := by
  rw [handleGang.eq_def] at hp
  repeat' (first | split at hp | (dsimp only at hp; split at hp))
  all_goals (first
    | exact ActionOutcome.noConfusion (congrArg Prod.snd hp)
    | exact absurd (ActionOutcome.rejected.inj (congrArg Prod.snd hp)).symm hrm
    | exact absurd (ActionOutcome.rejected.inj (congrArg Prod.snd hp)).symm hskip
    | (injection hp with h1 h2
       subst h1
       rfl))

/-- Current seat of the C6 scenario: skip-flagged. -/
def c6CardA : Card := mkCard .red "5" .number "c6a1"

/-- A card of the other C6 seat. -/
def c6CardB : Card := mkCard .green "7" .number "c6b1"

/-- Two-seat PLAYING state whose current seat `a` carries a one-shot skip
flag. -/
def c6SkipState : Game := baseState
  [{ mkPlayer "a" [c6CardA, mkCard .blue "2" .number "c6a2"] with isSkipped := true },
   mkPlayer "b" [c6CardB, mkCard .yellow "4" .number "c6b2"]]
  [mkCard .green "9" .number "c6d1"]

/-- The skip-flagged current seat attempts to play a card. -/
def c6SkipMsg : PlayerActionMsg :=
  { kind := ActKind.playCards, cards := [c6CardA], selectedColor := none
    playerId := "a" }

/-- The non-current seat attempts to play a card (out of turn). -/
def c6RejMsg : PlayerActionMsg :=
  { kind := ActKind.playCards, cards := [c6CardB], selectedColor := none
    playerId := "b" }

/-- C6 counterexample: the skip-flagged current player's PLAY_CARDS attempt
is rejected (reason `skippedPlayer`), yet the state mutates — the skip flag
is consumed and the turn advances to the next seat. -/
theorem c6_counterexample_skipped_attempt_mutates :
    (handlePlayerAction c6SkipState c6SkipMsg).2
        = ActionOutcome.rejected RejectReason.skippedPlayer
    ∧ (handlePlayerAction c6SkipState c6SkipMsg).1.currentPlayerIndex
        ≠ c6SkipState.currentPlayerIndex
    ∧ ((handlePlayerAction c6SkipState c6SkipMsg).1.players.map fun p => p.isSkipped)
        ≠ (c6SkipState.players.map fun p => p.isSkipped) := by
  refine ⟨by decide, by decide, by decide⟩

/-- C6 (amended): every rejected action whose reason is not the
skip-flag consumption (`skippedPlayer`) and not a failed hand removal
(`removeFailed`) leaves the whole game state unchanged except possibly the
claim-timeout flag: the full record equals the pre-state with only
`actionTimeoutActive` carried over, so in particular no player's hand or
flags change, the deck is untouched, and the turn does not advance. -/
theorem c6_amended_rejections_leave_state_unchanged (g : Game)
    (a : PlayerActionMsg) (r : RejectReason)
    (hr : (handlePlayerAction g a).2 = ActionOutcome.rejected r)
    (hskip : r ≠ RejectReason.skippedPlayer)
    (hrm : r ≠ RejectReason.removeFailed) :
    (handlePlayerAction g a).1
      = { g with actionTimeoutActive := (handlePlayerAction g a).1.actionTimeoutActive }
    ∧ (handlePlayerAction g a).1.players = g.players
    ∧ (handlePlayerAction g a).1.currentPlayerIndex = g.currentPlayerIndex
    ∧ (handlePlayerAction g a).1.deck = g.deck
    ∧ (handlePlayerAction g a).1.gamePhase = g.gamePhase := by
  rcases hp : handlePlayerAction g a with ⟨g', out⟩
  rw [hp] at hr
  have hout : out = ActionOutcome.rejected r := hr
  subst hout
  have main : g' = { g with actionTimeoutActive := g'.actionTimeoutActive } := by
    rw [handlePlayerAction.eq_def] at hp
    repeat' (first | split at hp | (dsimp only at hp; split at hp))
    all_goals (first
      | exact ActionOutcome.noConfusion (congrArg Prod.snd hp)
      | exact handlePlayCards_reject_frame g a.playerId a.cards a.selectedColor
          g' r hp hskip hrm
      | exact handleDrawCard_reject_frame g a.playerId g' r hp hskip hrm
      | exact handleChi_reject_frame g a.playerId a.cards g' r hp hskip hrm
      | exact handlePeng_reject_frame g a.playerId g' r hp hskip hrm
      | exact handleGang_reject_frame g a.playerId g' r hp hskip hrm
      | exact handleDeclareUno_reject_frame g a.playerId g' r hp hskip hrm
      | exact handlePass_reject_frame g a.playerId g' r hp hskip hrm
      | (injection hp with h1 h2
         subst h1
         rfl))
  exact ⟨main, by rw [main], by rw [main], by rw [main], by rw [main]⟩

/-- C6 (amended) witness: the out-of-turn play attempt on the concrete
two-seat state is rejected with reason `notYourTurn`, and the amended
theorem instantiates there, giving the unchanged-state record equality. -/
theorem c6_amended_rejections_leave_state_unchanged_witness :
    (handlePlayerAction c6SkipState c6RejMsg).1
      = { c6SkipState with actionTimeoutActive :=
            (handlePlayerAction c6SkipState c6RejMsg).1.actionTimeoutActive }
    ∧ (handlePlayerAction c6SkipState c6RejMsg).1.players = c6SkipState.players
    ∧ (handlePlayerAction c6SkipState c6RejMsg).1.currentPlayerIndex
        = c6SkipState.currentPlayerIndex
    ∧ (handlePlayerAction c6SkipState c6RejMsg).1.deck = c6SkipState.deck
    ∧ (handlePlayerAction c6SkipState c6RejMsg).1.gamePhase = c6SkipState.gamePhase :=
  c6_amended_rejections_leave_state_unchanged c6SkipState c6RejMsg
    RejectReason.notYourTurn (by decide) (by decide) (by decide)


/-! ## Claim C8 -/

/-- Removing every entry equal to `pid` leaves a list that does not
contain `pid` (the `clearUnoTimer` map deletion). -/
theorem contains_filter_self (l : List String) (pid : String) :
    (l.filter fun x => x != pid).contains pid = false := by
  induction l with
  | nil => rfl
  | cons a t ih =>
    rw [List.filter_cons]
    by_cases ha : a = pid
    · rw [if_neg (by simp [ha])]
      exact ih
    · rw [if_pos (by simp [ha])]
      rw [List.contains_cons, ih]
      simp [Ne.symm ha]

/-- Updating the found player rewrites the lookup result through `f`. -/
theorem getPlayerById_updatePlayerById_self (g : Game) (pid : String)
    (f : Player → Player) (hid : ∀ p, (f p).id = p.id) (player : Player)
    (hfind : g.getPlayerById pid = some player) :
    (updatePlayerById g pid f).getPlayerById pid = some (f player) := by
  have hpid : player.id = pid := by
    simpa using List.find?_some (show g.players.find? (fun p => p.id == pid) = some player from hfind)
  simp only [Game.getPlayerById, updatePlayerById, find?_updateFirst _ _ _ _ hid]
  rw [show g.players.find? (fun p => p.id == pid) = some player from hfind]
  simp [hpid]

/-- A fire on an unarmed timer is a no-op. -/
theorem unoTimerFire_unarmed (g : Game) (pid : String)
    (h : g.unoTimers.contains pid = false) :
    unoTimerFire g pid = g := by
  unfold unoTimerFire
  rw [if_neg (show ¬(g.unoTimers.contains pid = true) by
    rw [h]
    exact Bool.false_ne_true)]

/-- An armed fire whose re-check finds a stale situation (declared already,
or no longer exactly one card) only deletes the timer entry. -/
theorem unoTimerFire_armed_stale (g : Game) (pid : String) (player : Player)
    (harm : g.unoTimers.contains pid = true)
    (hphase : g.gamePhase = GamePhase.playing)
    (hfind : g.getPlayerById pid = some player)
    (hstale : player.hasCalledUno = true ∨ player.hand.length ≠ 1) :
    unoTimerFire g pid = clearUnoTimer g pid := by
  unfold unoTimerFire
  rw [if_pos harm]
  rw [if_neg (show ¬((clearUnoTimer g pid).gamePhase ≠ GamePhase.playing) by
    show ¬(g.gamePhase ≠ GamePhase.playing)
    simp [hphase])]
  rw [show (clearUnoTimer g pid).getPlayerById pid = some player from hfind]
  show (if ¬player.hasCalledUno ∧ player.hand.length = 1 then _ else _) = _
  rw [if_neg (by rcases hstale with h | h <;> simp [h])]

/-- An armed fire whose re-check still sees one undeclared card applies the
two-card penalty to the timer's player. -/
theorem unoTimerFire_armed_live (g : Game) (pid : String) (player : Player)
    (harm : g.unoTimers.contains pid = true)
    (hphase : g.gamePhase = GamePhase.playing)
    (hfind : g.getPlayerById pid = some player)
    (hcall : player.hasCalledUno = false)
    (hlen1 : player.hand.length = 1) :
    unoTimerFire g pid = drawCardsForPlayer (clearUnoTimer g pid) pid 2 := by
  unfold unoTimerFire
  rw [if_pos harm]
  rw [if_neg (show ¬((clearUnoTimer g pid).gamePhase ≠ GamePhase.playing) by
    show ¬(g.gamePhase ≠ GamePhase.playing)
    simp [hphase])]
  rw [show (clearUnoTimer g pid).getPlayerById pid = some player from hfind]
  show (if ¬player.hasCalledUno ∧ player.hand.length = 1 then _ else _) = _
  rw [if_pos ⟨by simp [hcall], hlen1⟩]

/-- C8: the UNO deadline discipline — after any hand-change notification a
player carries a live deadline exactly when their hand is one undeclared
card; a hand away from one card has its declaration flag reset and its
deadline cancelled; an unarmed fire is a no-op; an armed fire re-checks the
player and, when the situation went stale, only deletes the timer; and an
armed fire on a still-valid one-card undeclared hand draws exactly two
cards for that player alone, disarms the deadline, and a second fire does
nothing. -/
theorem c8_uno_deadline_invariant :
    (∀ (g : Game) (pid : String) (player : Player),
        g.getPlayerById pid = some player →
        ((onPlayerHandChanged g pid).unoTimers.contains pid = true
          ↔ (player.hand.length = 1 ∧ player.hasCalledUno = false)))
    ∧ (∀ (g : Game) (pid : String) (player : Player),
        g.getPlayerById pid = some player →
        player.hand.length ≠ 1 →
        ((onPlayerHandChanged g pid).getPlayerById pid).map Player.hasCalledUno
            = some false
        ∧ (onPlayerHandChanged g pid).unoTimers.contains pid = false)
    ∧ (∀ (g : Game) (pid : String),
        g.unoTimers.contains pid = false → unoTimerFire g pid = g)
    ∧ (∀ (g : Game) (pid : String) (player : Player),
        g.unoTimers.contains pid = true →
        g.gamePhase = GamePhase.playing →
        g.getPlayerById pid = some player →
        (player.hasCalledUno = true ∨ player.hand.length ≠ 1) →
        unoTimerFire g pid = clearUnoTimer g pid)
    ∧ (∀ (g : Game) (pid : String) (player : Player),
        g.unoTimers.contains pid = true →
        g.gamePhase = GamePhase.playing →
        g.getPlayerById pid = some player →
        player.hasCalledUno = false →
        player.hand.length = 1 →
        2 ≤ g.deck.length →
        handLenOf (unoTimerFire g pid) pid = handLenOf g pid + 2
        ∧ (unoTimerFire g pid).deck.length = g.deck.length - 2
        ∧ (∀ qid, qid ≠ pid → handLenOf (unoTimerFire g pid) qid = handLenOf g qid)
        ∧ (unoTimerFire g pid).unoTimers.contains pid = false
        ∧ unoTimerFire (unoTimerFire g pid) pid = unoTimerFire g pid) := by
  refine ⟨?_, ?_, ?_, ?_, ?_⟩
  · intro g pid player hfind
    unfold onPlayerHandChanged
    rw [hfind]
    dsimp only
    by_cases hlen : player.hand.length ≠ 1
    · rw [if_pos hlen]
      show ((g.unoTimers.filter fun x => x != pid).contains pid = true) ↔ _
      rw [contains_filter_self]
      simp [hlen]
    · rw [if_neg hlen]
      have hl : player.hand.length = 1 := by omega
      by_cases hcall : player.hasCalledUno = true
      · rw [if_pos hcall]
        show ((g.unoTimers.filter fun x => x != pid).contains pid = true) ↔ _
        rw [contains_filter_self]
        simp [hcall]
      · have hcb : player.hasCalledUno = false := by
          revert hcall
          cases player.hasCalledUno <;> simp
        rw [if_neg hcall]
        by_cases hc : g.unoTimers.contains pid = true
        · rw [if_pos hc]
          constructor
          · intro _
            exact ⟨hl, hcb⟩
          · intro _
            exact hc
        · rw [if_neg hc]
          show ((g.unoTimers ++ [pid]).contains pid = true) ↔ _
          constructor
          · intro _
            exact ⟨hl, hcb⟩
          · intro _
            simp
  · intro g pid player hfind hlen
    unfold onPlayerHandChanged
    rw [hfind]
    dsimp only
    rw [if_pos hlen]
    constructor
    · show ((updatePlayerById g pid fun p => { p with hasCalledUno := false
          }).getPlayerById pid).map Player.hasCalledUno = some false
      rw [getPlayerById_updatePlayerById_self g pid
        (fun p => { p with hasCalledUno := false }) (fun p => rfl) player hfind]
      rfl
    · exact contains_filter_self _ _
  · intro g pid h
    exact unoTimerFire_unarmed g pid h
  · intro g pid player harm hphase hfind hstale
    exact unoTimerFire_armed_stale g pid player harm hphase hfind hstale
  · intro g pid player harm hphase hfind hcall hlen1 hdeck
    have E := unoTimerFire_armed_live g pid player harm hphase hfind hcall hlen1
    have hdeck1 : 2 ≤ (clearUnoTimer g pid).deck.length := hdeck
    have hsome1 : ((clearUnoTimer g pid).getPlayerById pid).isSome = true := by
      rw [show (clearUnoTimer g pid).getPlayerById pid = some player from hfind]
      rfl
    obtain ⟨F, D, Dis, HS, HO, IS⟩ := drawCards_facts (clearUnoTimer g pid) pid 2 hdeck1
    have hTimerOff : (unoTimerFire g pid).unoTimers.contains pid = false := by
      rw [E]
      obtain ⟨f1, d1, dis1, hs1, ho1, is1⟩ :=
        drawLoop_facts pid 2 (clearUnoTimer g pid) hdeck1
      have hsome2 : ((drawLoop (clearUnoTimer g pid) pid 2).getPlayerById pid).isSome
          = true := by rw [is1]; exact hsome1
      obtain ⟨q, hq⟩ := Option.isSome_iff_exists.mp hsome2
      have hqlen : q.hand.length = 3 := by
        have h1 : handLenOf (drawLoop (clearUnoTimer g pid) pid 2) pid
            = handLenOf (clearUnoTimer g pid) pid + 2 := hs1 hsome1
        have h2 : handLenOf (clearUnoTimer g pid) pid = 1 := by
          show ((( clearUnoTimer g pid).getPlayerById pid).map fun p => p.hand.length).getD 0 = 1
          rw [show (clearUnoTimer g pid).getPlayerById pid = some player from hfind]
          simp [hlen1]
        have h3 : handLenOf (drawLoop (clearUnoTimer g pid) pid 2) pid = q.hand.length := by
          show (((drawLoop (clearUnoTimer g pid) pid 2).getPlayerById pid).map
              fun p => p.hand.length).getD 0 = q.hand.length
          rw [hq]
          rfl
        omega
      show (onPlayerHandChanged (drawLoop (clearUnoTimer g pid) pid 2) pid).unoTimers.contains pid = false
      unfold onPlayerHandChanged
      rw [hq]
      dsimp only
      rw [if_pos (by omega : q.hand.length ≠ 1)]
      exact contains_filter_self _ _
    refine ⟨?_, ?_, ?_, hTimerOff, ?_⟩
    · rw [E]
      have h2 : handLenOf (clearUnoTimer g pid) pid = handLenOf g pid := rfl
      rw [HS hsome1, h2]
    · rw [E, D]
      rfl
    · intro qid hq
      rw [E]
      exact HO qid hq
    · exact unoTimerFire_unarmed (unoTimerFire g pid) pid hTimerOff

/-- Hand of one undeclared card for the C8 witness. -/
def c8Player : Player := mkPlayer "u" [mkCard .red "9" .number "c8u1"]

/-- Armed-deadline state for the C8 witness: seat `u` holds one undeclared
card, the deadline is armed, and two cards wait in the draw pile. -/
def c8State : Game :=
  { baseState [c8Player, mkPlayer "v" [mkCard .blue "2" .number "c8v1"]]
      [mkCard .green "5" .number "c8d1", mkCard .green "6" .number "c8d2"] with
    unoTimers := ["u"] }

/-- C8 witness: the claim theorem instantiated on the concrete armed state —
the post-notification iff, the away-from-one reset, the unarmed no-op, the
stale-fire clear, and the live fire drawing exactly two cards once. -/
theorem c8_uno_deadline_invariant_witness :
    ((onPlayerHandChanged c8State "u").unoTimers.contains "u" = true
      ↔ (c8Player.hand.length = 1 ∧ c8Player.hasCalledUno = false))
    ∧ (unoTimerFire c8State "v" = c8State)
    ∧ (handLenOf (unoTimerFire c8State "u") "u" = handLenOf c8State "u" + 2
        ∧ (unoTimerFire c8State "u").deck.length = c8State.deck.length - 2
        ∧ (∀ qid, qid ≠ "u" → handLenOf (unoTimerFire c8State "u") qid = handLenOf c8State qid)
        ∧ (unoTimerFire c8State "u").unoTimers.contains "u" = false
        ∧ unoTimerFire (unoTimerFire c8State "u") "u" = unoTimerFire c8State "u") := by
  refine ⟨?_, ?_, ?_⟩
  · exact c8_uno_deadline_invariant.1 c8State "u" c8Player (by decide)
  · exact c8_uno_deadline_invariant.2.2.1 c8State "v" (by decide)
  · exact c8_uno_deadline_invariant.2.2.2.2 c8State "u" c8Player (by decide)
      (by decide) (by decide) (by decide) (by decide) (by decide)


/-! ## Claim C4 -/

/-- A fold preserving a predicate on its accumulator preserves it overall. -/
theorem foldl_invariant {α β : Type} (P : β → Prop) (f : β → α → β)
    (hf : ∀ acc x, P acc → P (f acc x)) :
    ∀ (l : List α) (acc : β), P acc → P (l.foldl f acc) := by
  intro l
  induction l with
  | nil => exact fun acc h => h
  | cons x t ih => exact fun acc h => ih (f acc x) (hf acc x h)

/-- A successful association lookup returns the payload of a list entry. -/
theorem lookupBy_mem (l : List (String × PotentialAction)) (pid : String)
    (a : PotentialAction) (h : lookupBy l pid = some a) :
    ∃ e ∈ l, e.2 = a := by
  unfold lookupBy at h
  rcases hf : l.find? (fun e => e.1 == pid) with _ | e
  · rw [hf] at h
    exact Option.noConfusion h
  · rw [hf] at h
    have h2 : some e.2 = some a := h
    exact ⟨e, List.mem_of_find?_eq_some hf, by injection h2⟩

/-- Every CHI option produced by the scan is a CHI action. -/
theorem chiOptionsFor_kind (g : Game) (card : Card) (pid : String) :
    ∀ a ∈ chiOptionsFor g card pid, a.type = ClaimType.chi := by
  intro a ha
  unfold chiOptionsFor at ha
  repeat' split at ha
  all_goals first
    | exact absurd ha (List.not_mem_nil a)
    | (simp only [List.mem_append] at ha
       rcases ha with (h | h) | h <;> (split at h <;> simp_all))

/-- The first pass collects only GANG entries on the left and only PENG
entries on the right. -/
theorem scanGangPeng_kinds (g : Game) (card : Card) (pid : String) :
    (∀ e ∈ (scanGangPeng g card pid).1, e.2.type = ClaimType.gang)
    ∧ (∀ e ∈ (scanGangPeng g card pid).2, e.2.type = ClaimType.peng) := by
  unfold scanGangPeng
  refine foldl_invariant
    (fun acc : List (String × PotentialAction) × List (String × PotentialAction) =>
      (∀ e ∈ acc.1, e.2.type = ClaimType.gang)
      ∧ (∀ e ∈ acc.2, e.2.type = ClaimType.peng)) _ ?_ (claimOrder g) ([], [])
    ⟨by simp, by simp⟩
  intro acc idx hacc
  dsimp only
  split
  · exact hacc
  · split
    · refine ⟨?_, hacc.2⟩
      intro e he
      rcases List.mem_append.mp he with h | h
      · exact hacc.1 e h
      · rw [List.mem_singleton.mp h]
    · split
      · refine ⟨hacc.1, ?_⟩
        intro e he
        rcases List.mem_append.mp he with h | h
        · exact hacc.2 e h
        · rw [List.mem_singleton.mp h]
      · exact hacc

/-- The flattened claim queue is three priority blocks: GANG steps, then
PENG steps, then CHI steps. -/
theorem buildClaimQueue_priority (g : Game)
    (gangBy pengBy : List (String × PotentialAction))
    (chiBy : List (String × List PotentialAction))
    (hg : ∀ e ∈ gangBy, e.2.type = ClaimType.gang)
    (hp : ∀ e ∈ pengBy, e.2.type = ClaimType.peng)
    (hc : ∀ e ∈ chiBy, ∀ a ∈ e.2, a.type = ClaimType.chi) :
    ∃ gs ps cs, buildClaimQueue g gangBy pengBy chiBy = gs ++ ps ++ cs
      ∧ (∀ s ∈ gs, ∀ a ∈ s.actions, a.type = ClaimType.gang)
      ∧ (∀ s ∈ ps, ∀ a ∈ s.actions, a.type = ClaimType.peng)
      ∧ (∀ s ∈ cs, ∀ a ∈ s.actions, a.type = ClaimType.chi) := by
  refine ⟨_, _, _, rfl, ?_, ?_, ?_⟩
  · refine foldl_invariant
      (fun acc : List ClaimStep => ∀ s ∈ acc, ∀ a ∈ s.actions, a.type = ClaimType.gang)
      _ ?_ (claimOrder g) [] (by simp)
    intro acc idx hacc
    dsimp only
    split
    · exact hacc
    next p hpl =>
      split
      next a hl =>
        intro s hs
        rcases List.mem_append.mp hs with h | h
        · exact hacc s h
        · rw [List.mem_singleton.mp h]
          intro b hb
          rw [List.mem_singleton.mp hb]
          obtain ⟨e, he, he2⟩ := lookupBy_mem gangBy _ _ hl
          rw [← he2]
          exact hg e he
      next => exact hacc
  · refine foldl_invariant
      (fun acc : List ClaimStep => ∀ s ∈ acc, ∀ a ∈ s.actions, a.type = ClaimType.peng)
      _ ?_ (claimOrder g) [] (by simp)
    intro acc idx hacc
    dsimp only
    split
    · exact hacc
    next p hpl =>
      split
      · exact hacc
      · split
        next a hl =>
          intro s hs
          rcases List.mem_append.mp hs with h | h
          · exact hacc s h
          · rw [List.mem_singleton.mp h]
            intro b hb
            rw [List.mem_singleton.mp hb]
            obtain ⟨e, he, he2⟩ := lookupBy_mem pengBy _ _ hl
            rw [← he2]
            exact hp e he
        next => exact hacc
  · refine foldl_invariant
      (fun acc : List ClaimStep => ∀ s ∈ acc, ∀ a ∈ s.actions, a.type = ClaimType.chi)
      _ ?_ (claimOrder g) [] (by simp)
    intro acc idx hacc
    dsimp only
    split
    · exact hacc
    next p hpl =>
      split
      · exact hacc
      · split
        next actions hl =>
          split
          · exact hacc
          · intro s hs
            rcases List.mem_append.mp hs with h | h
            · exact hacc s h
            · rw [List.mem_singleton.mp h]
              intro b hb
              rcases hfe : chiBy.find? (fun e => e.1 == p.id) with _ | e
              · rw [hfe] at hl
                exact Option.noConfusion hl
              · rw [hfe] at hl
                have hl2 : some e.2 = some actions := hl
                have he : e ∈ chiBy := List.mem_of_find?_eq_some hfe
                have he2 : e.2 = actions := by injection hl2
                exact hc e he b (by rw [he2]; exact hb)
        next => exact hacc

/-- Prompting the head of a fresh nonempty queue does not change the
queue itself. -/
theorem promptNext_claimQueue (g : Game) (hidx : g.claimQueueIndex = 0)
    (h : g.claimQueue.isEmpty = false) :
    (promptNextClaimCandidate g).claimQueue = g.claimQueue := by
  have hlen : g.claimQueue.length ≠ 0 := by
    rcases hq : g.claimQueue with _ | ⟨s, t⟩
    · rw [hq] at h
      exact absurd h (by simp)
    · simp
  unfold promptNextClaimCandidate
  rw [if_neg (by
    show ¬g.claimQueue.length ≤ g.claimQueueIndex
    rw [hidx]
    omega)]

/-- Played card of the C4 scenario. -/
def c4Red5 : Card := mkCard .red "5" .number "c4p0"

/-- Three-seat C4 state: seat `s0` to act, next seat `s1` can only CHI
(red 4 and red 6), seat `s2` holds three identical red 5s (GANG). -/
def c4State : Game := baseState
  [mkPlayer "s0" [c4Red5, mkCard .blue "9" .number "c4s0b"],
   mkPlayer "s1" [mkCard .red "4" .number "c4s1a", mkCard .red "6" .number "c4s1b",
     mkCard .green "1" .number "c4s1c"],
   mkPlayer "s2" [mkCard .red "5" .number "c4s2a", mkCard .red "5" .number "c4s2b",
     mkCard .red "5" .number "c4s2c", mkCard .yellow "2" .number "c4s2d"]]
  [mkCard .green "9" .number "c4d1", mkCard .green "8" .number "c4d2"]

/-- The state after seat `s0` plays the red 5 as a SINGLE. -/
def c4Open : Game := (handlePlayCards c4State "s0" [c4Red5] none).1

/-- The state after the first claim window times out. -/
def c4AfterTimeout : Game := claimTimeoutFire c4Open

/-- The state after the second claim window times out. -/
def c4Resolved : Game := claimTimeoutFire c4AfterTimeout

/-- C4: the claim queue after a play is ordered by priority class — all
GANG steps, then all PENG steps, then CHI steps — the timeout advances the
cursor to the next queue entry and re-arms the prompt, and in the concrete
scenario the GANG-capable seat `s2` is prompted before the CHI-capable
immediate next seat `s1`, which is prompted exactly when `s2`'s window
times out; exhaustion of the queue resolves the pending effect. -/
theorem c4_claim_priority_and_prompting :
    (∀ (g : Game) (card : Card) (pid : String),
        ∃ gs ps cs,
          (findPotentialActions g card pid).1.claimQueue = gs ++ ps ++ cs
          ∧ (∀ s ∈ gs, ∀ a ∈ s.actions, a.type = ClaimType.gang)
          ∧ (∀ s ∈ ps, ∀ a ∈ s.actions, a.type = ClaimType.peng)
          ∧ (∀ s ∈ cs, ∀ a ∈ s.actions, a.type = ClaimType.chi))
    ∧ (∀ g : Game, g.actionTimeoutActive = true →
        g.claimQueueIndex + 1 < g.claimQueue.length →
        claimTimeoutFire g = { g with
          pendingActions := (g.claimQueue.getD (g.claimQueueIndex + 1) default).actions,
          claimQueueIndex := g.claimQueueIndex + 1,
          actionTimeoutActive := true })
    ∧ ((handlePlayCards c4State "s0" [c4Red5] none).2 = ActionOutcome.accepted
        ∧ c4Open.claimQueue.map (fun s => s.playerId) = ["s2", "s1"]
        ∧ getCurrentClaimPlayerId c4Open = some "s2"
        ∧ c4Open.pendingActions.map (fun a => a.type) = [ClaimType.gang]
        ∧ getCurrentClaimPlayerId c4AfterTimeout = some "s1"
        ∧ c4AfterTimeout.pendingActions.map (fun a => a.type) = [ClaimType.chi]
        ∧ isClaimWindowActive c4Resolved = false
        ∧ c4Resolved.pendingEffect = none
        ∧ c4Resolved.currentPlayerIndex = 1) := by
  refine ⟨?_, ?_, ?_⟩
  · intro g card pid
    obtain ⟨hg, hp⟩ := scanGangPeng_kinds
      { g with pendingActions := [], claimQueue := [], claimQueueIndex := 0 } card pid
    have hchi := chiOptionsFor_kind
      { g with pendingActions := [], claimQueue := [], claimQueueIndex := 0 } card pid
    unfold findPotentialActions
    dsimp only
    rcases hco : chiOptionsFor
        { g with pendingActions := [], claimQueue := [], claimQueueIndex := 0 } card pid
      with _ | ⟨a0, rest⟩
    · rw [hco] at hchi
      obtain ⟨gs, ps, cs, heq, h1, h2, h3⟩ := buildClaimQueue_priority
        { g with pendingActions := [], claimQueue := [], claimQueueIndex := 0 }
        _ _ ([] : List (String × List PotentialAction)) hg hp (by simp)
      refine ⟨gs, ps, cs, ?_, h1, h2, h3⟩
      split
      · exact heq
      next hne =>
        rw [Bool.not_eq_true] at hne
        exact (promptNext_claimQueue _ rfl hne).trans heq
    · rw [hco] at hchi
      obtain ⟨gs, ps, cs, heq, h1, h2, h3⟩ := buildClaimQueue_priority
        { g with pendingActions := [], claimQueue := [], claimQueueIndex := 0 }
        _ _ [(a0.playerId, a0 :: rest)] hg hp (by
          intro e he
          rw [List.mem_singleton.mp he]
          exact hchi)
      refine ⟨gs, ps, cs, ?_, h1, h2, h3⟩
      split
      · exact heq
      next hne =>
        rw [Bool.not_eq_true] at hne
        exact (promptNext_claimQueue _ rfl hne).trans heq
  · intro g harm hlt
    unfold claimTimeoutFire
    rw [if_pos harm]
    unfold promptNextClaimCandidate
    rw [if_neg (by
      show ¬g.claimQueue.length ≤ g.claimQueueIndex + 1
      omega)]
  · refine ⟨by decide, by decide, by decide, by decide, by decide, by decide,
      by decide, by decide, by decide⟩

/-- C4 witness: the universal parts instantiated on the concrete opened
claim window — the priority decomposition of the queue built for the played
red 5 and the cursor advance of the first timeout. -/
theorem c4_claim_priority_and_prompting_witness :
    (∃ gs ps cs,
        (findPotentialActions c4State c4Red5 "s0").1.claimQueue = gs ++ ps ++ cs
        ∧ (∀ s ∈ gs, ∀ a ∈ s.actions, a.type = ClaimType.gang)
        ∧ (∀ s ∈ ps, ∀ a ∈ s.actions, a.type = ClaimType.peng)
        ∧ (∀ s ∈ cs, ∀ a ∈ s.actions, a.type = ClaimType.chi))
    ∧ claimTimeoutFire c4Open = { c4Open with
        pendingActions := (c4Open.claimQueue.getD (c4Open.claimQueueIndex + 1) default).actions,
        claimQueueIndex := c4Open.claimQueueIndex + 1,
        actionTimeoutActive := true } :=
  ⟨c4_claim_priority_and_prompting.1 c4State c4Red5 "s0",
   c4_claim_priority_and_prompting.2.1 c4Open (by decide) (by decide)⟩


/-! ## Claim C10 -/

/-- One direction of id-based lookup availability under equal id maps. -/
theorem find?_id_isSome_imp {l l' : List Player}
    (hmap : l'.map (fun p => p.id) = l.map fun p => p.id) (qid : String)
    (h : (l.find? fun p => p.id == qid).isSome = true) :
    (l'.find? fun p => p.id == qid).isSome = true := by
  rw [List.find?_isSome] at h ⊢
  obtain ⟨x, hx, hpx⟩ := h
  have hmm : x.id ∈ l.map (fun p => p.id) := List.mem_map_of_mem _ hx
  rw [← hmap] at hmm
  obtain ⟨y, hy, hyx⟩ := List.mem_map.mp hmm
  refine ⟨y, hy, ?_⟩
  show (y.id == qid) = true
  rw [hyx]
  exact hpx

/-- A frame-equal state offers exactly the same id lookups. -/
theorem getPlayerById_isSome_frame {g g' : Game} (F : FrameEq g g') (qid : String) :
    (g'.getPlayerById qid).isSome = (g.getPlayerById qid).isSome := by
  apply Bool.eq_iff_iff.mpr
  constructor
  · exact fun h => find?_id_isSome_imp F.ids.symm qid h
  · exact fun h => find?_id_isSome_imp F.ids qid h

/-- The penalty loop of `handlePeng`/`handleGang`, generalized over the
visited id list (`drawForOthers` instantiates it with the seat ids). -/
def drawOthersLoop (g : Game) (pid : String) (count : Nat) (ids : List String) : Game :=
  ids.foldl (fun acc q => if q != pid then drawCardsForPlayer acc q count else acc) g

theorem drawOthersLoop_cons (g : Game) (pid : String) (count : Nat)
    (q : String) (rest : List String) :
    drawOthersLoop g pid count (q :: rest)
      = drawOthersLoop (if q != pid then drawCardsForPlayer g q count else g)
          pid count rest := rfl

theorem drawForOthers_eq_loop (g : Game) (pid : String) (count : Nat) :
    drawForOthers g pid count
      = drawOthersLoop g pid count (g.players.map fun p => p.id) := rfl

/-- The penalty loop adds exactly `count` cards to every visited id other
than the claimant, touches nobody else, keeps the claimant's hand, keeps
the frame, and consumes at most `|ids| * count` deck cards. -/
theorem drawOthersLoop_facts (pid : String) (count : Nat) :
    ∀ (ids : List String) (g : Game),
      ids.Nodup →
      (∀ qid ∈ ids, (g.getPlayerById qid).isSome = true) →
      ids.length * count ≤ g.deck.length →
      (∀ qid ∈ ids, qid ≠ pid →
        handLenOf (drawOthersLoop g pid count ids) qid = handLenOf g qid + count)
      ∧ (∀ qid, qid ∉ ids →
        handLenOf (drawOthersLoop g pid count ids) qid = handLenOf g qid)
      ∧ handLenOf (drawOthersLoop g pid count ids) pid = handLenOf g pid
      ∧ FrameEq g (drawOthersLoop g pid count ids)
      ∧ g.deck.length ≤ (drawOthersLoop g pid count ids).deck.length
          + ids.length * count := by
  intro ids
  induction ids with
  | nil =>
    intro g _ _ _
    exact ⟨fun qid h => absurd h (List.not_mem_nil qid), fun qid _ => rfl, rfl,
      frameEq_refl g, by simp [drawOthersLoop]⟩
  | cons q rest ih =>
    intro g hnd hsome hdeck
    rw [drawOthersLoop_cons]
    by_cases hq : q = pid
    · rw [if_neg (by simp [hq])]
      have hnd2 : rest.Nodup := (List.nodup_cons.mp hnd).2
      have hsome2 : ∀ qid ∈ rest, (g.getPlayerById qid).isSome = true :=
        fun qid hm => hsome qid (List.mem_cons_of_mem q hm)
      have hdeck2 : rest.length * count ≤ g.deck.length := by
        rw [List.length_cons, Nat.succ_mul] at hdeck
        omega
      obtain ⟨A, B, C, F, D⟩ := ih g hnd2 hsome2 hdeck2
      refine ⟨?_, ?_, C, F, ?_⟩
      · intro qid hm hne
        rcases List.mem_cons.mp hm with h | h
        · exact absurd (h.trans hq) hne
        · exact A qid h hne
      · intro qid hnm
        exact B qid fun hmem => hnm (List.mem_cons_of_mem q hmem)
      · rw [List.length_cons, Nat.succ_mul]
        omega
    · rw [if_pos (by simp [hq])]
      have hcnt : count ≤ g.deck.length := by
        rw [List.length_cons, Nat.succ_mul] at hdeck
        omega
      have hsq : (g.getPlayerById q).isSome = true :=
        hsome q (List.mem_cons_self q rest)
      obtain ⟨F1, D1, Dis1, HS1, HO1, IS1⟩ := drawCards_facts g q count hcnt
      have hnd2 : rest.Nodup := (List.nodup_cons.mp hnd).2
      have hqnotin : q ∉ rest := (List.nodup_cons.mp hnd).1
      have hsome2 : ∀ qid ∈ rest,
          ((drawCardsForPlayer g q count).getPlayerById qid).isSome = true := by
        intro qid hm
        rw [getPlayerById_isSome_frame F1 qid]
        exact hsome qid (List.mem_cons_of_mem q hm)
      have hdeck2 : rest.length * count ≤ (drawCardsForPlayer g q count).deck.length := by
        rw [D1]
        rw [List.length_cons, Nat.succ_mul] at hdeck
        omega
      obtain ⟨A, B, C, F, D⟩ := ih (drawCardsForPlayer g q count) hnd2 hsome2 hdeck2
      refine ⟨?_, ?_, ?_, frameEq_trans F1 F, ?_⟩
      · intro qid hm hne
        rcases List.mem_cons.mp hm with h | h
        · subst h
          rw [B qid hqnotin]
          exact HS1 hsq
        · have hq2 : qid ≠ q := fun he => hqnotin (he ▸ h)
          rw [A qid h hne, HO1 qid hq2]
      · intro qid hnm
        have h1 : qid ∉ rest := fun hm => hnm (List.mem_cons_of_mem q hm)
        have h2 : qid ≠ q := fun he => hnm (he ▸ List.mem_cons_self q rest)
        rw [B qid h1, HO1 qid h2]
      · rw [C, HO1 pid (Ne.symm hq)]
      · rw [List.length_cons, Nat.succ_mul]
        rw [D1] at D
        omega

/-- The claimed red draw-two on the table for the C10 PENG scenario. -/
def c10Target : Card := mkCard .red "+2" .drawTwo "c10t"

/-- The PENG claim offered to seat `c`. -/
def c10PengAction : PotentialAction :=
  { type := ClaimType.peng
    playerId := "c"
    cards := [mkCard .red "+2" .drawTwo "c10c1", mkCard .red "+2" .drawTwo "c10c2"]
    targetCard := c10Target }

/-- Three-seat state with an open PENG window for seat `c` on a red
draw-two: seats `a` and `b` will take the two-card penalty. -/
def c10PengState : Game :=
  { baseState
      [mkPlayer "a" [mkCard .blue "1" .number "c10a1", mkCard .blue "2" .number "c10a2"],
       mkPlayer "c" [mkCard .red "+2" .drawTwo "c10c1", mkCard .red "+2" .drawTwo "c10c2",
         mkCard .green "3" .number "c10c3"],
       mkPlayer "b" [mkCard .yellow "4" .number "c10b1", mkCard .yellow "5" .number "c10b2"]]
      [mkCard .green "4" .number "c10d0", mkCard .green "5" .number "c10d1",
       mkCard .green "6" .number "c10d2", mkCard .green "7" .number "c10d3",
       mkCard .green "8" .number "c10d4", mkCard .green "9" .number "c10d5"] with
    pendingActions := [c10PengAction],
    pendingEffect := some { card := c10Target, playedById := "a", chosenColor := none },
    actionTimeoutActive := true,
    claimQueue := [{ playerId := "c", actions := [c10PengAction] }],
    discardPile := [[c10Target]],
    hasActiveRound := true, lastPlayedHandType := some HandType.single,
    lastPlayedBy := some "a" }

/-- The claimed wild-draw-four for the C10 GANG scenario. -/
def c10Target4 : Card := mkCard .wild "+4" .wildDrawFour "c10t4"

/-- The GANG claim offered to seat `c`. -/
def c10GangAction : PotentialAction :=
  { type := ClaimType.gang
    playerId := "c"
    cards := [mkCard .wild "+4" .wildDrawFour "c10gc1",
      mkCard .wild "+4" .wildDrawFour "c10gc2",
      mkCard .wild "+4" .wildDrawFour "c10gc3"]
    targetCard := c10Target4 }

/-- Three-seat state with an open GANG window for seat `c` on a
wild-draw-four: seats `a` and `b` will take the four-card penalty. -/
def c10GangState : Game :=
  { baseState
      [mkPlayer "a" [mkCard .blue "1" .number "c10g1", mkCard .blue "2" .number "c10g2"],
       mkPlayer "c" [mkCard .wild "+4" .wildDrawFour "c10gc1",
         mkCard .wild "+4" .wildDrawFour "c10gc2",
         mkCard .wild "+4" .wildDrawFour "c10gc3",
         mkCard .green "3" .number "c10gc4"],
       mkPlayer "b" [mkCard .yellow "4" .number "c10gb1"]]
      [mkCard .green "1" .number "c10gd1", mkCard .green "2" .number "c10gd2",
       mkCard .green "3" .number "c10gd3", mkCard .green "4" .number "c10gd4",
       mkCard .green "5" .number "c10gd5", mkCard .green "6" .number "c10gd6",
       mkCard .green "7" .number "c10gd7", mkCard .green "8" .number "c10gd8",
       mkCard .green "9" .number "c10gd9"] with
    pendingActions := [c10GangAction],
    pendingEffect := some { card := c10Target4, playedById := "a", chosenColor := none },
    actionTimeoutActive := true,
    claimQueue := [{ playerId := "c", actions := [c10GangAction] }],
    discardPile := [[c10Target4]],
    hasActiveRound := true, lastPlayedHandType := some HandType.single,
    lastPlayedBy := some "a" }

/-- C10: the penalty loop of an accepted PENG/GANG on a DRAW_TWO
(respectively WILD_DRAW_FOUR) target gives every player other than the
claimant exactly 2 (respectively 4) extra cards and leaves the claimant's
hand alone (universally, for distinct seat ids and a sufficient draw
pile); in the concrete PENG scenario both other seats gain 2 cards, the
claimant melds two and leads the new round, and in the concrete GANG
scenario both other seats gain 4 cards, the claimant melds three plus one
replacement draw and leads the new round. -/
theorem c10_peng_gang_penalty_draws :
    (∀ (g : Game) (pid : String) (count : Nat),
        (g.players.map fun p => p.id).Nodup →
        g.players.length * count ≤ g.deck.length →
        (∀ p ∈ g.players, p.id ≠ pid →
          handLenOf (drawForOthers g pid count) p.id = handLenOf g p.id + count)
        ∧ handLenOf (drawForOthers g pid count) pid = handLenOf g pid)
    ∧ ((handlePeng c10PengState "c").2 = ActionOutcome.accepted
        ∧ handLenOf (handlePeng c10PengState "c").1 "a" = handLenOf c10PengState "a" + 2
        ∧ handLenOf (handlePeng c10PengState "c").1 "b" = handLenOf c10PengState "b" + 2
        ∧ handLenOf (handlePeng c10PengState "c").1 "c" + 2 = handLenOf c10PengState "c"
        ∧ (handlePeng c10PengState "c").1.currentPlayerIndex = 1
        ∧ (handlePeng c10PengState "c").1.hasActiveRound = false
        ∧ (handlePeng c10PengState "c").1.pendingEffect = none)
    ∧ ((handleGang c10GangState "c").2 = ActionOutcome.accepted
        ∧ handLenOf (handleGang c10GangState "c").1 "a" = handLenOf c10GangState "a" + 4
        ∧ handLenOf (handleGang c10GangState "c").1 "b" = handLenOf c10GangState "b" + 4
        ∧ handLenOf (handleGang c10GangState "c").1 "c" + 2 = handLenOf c10GangState "c"
        ∧ (handleGang c10GangState "c").1.currentPlayerIndex = 1
        ∧ (handleGang c10GangState "c").1.hasActiveRound = false
        ∧ (handleGang c10GangState "c").1.pendingEffect = none) := by
  refine ⟨?_, ?_, ?_⟩
  · intro g pid count hnd hdeck
    have hsome : ∀ qid ∈ g.players.map (fun p => p.id),
        (g.getPlayerById qid).isSome = true := by
      intro qid hm
      obtain ⟨p, hp, hpq⟩ := List.mem_map.mp hm
      rw [← hpq]
      exact getPlayerById_isSome_of_mem g p hp
    have hdeck2 : (g.players.map fun p => p.id).length * count ≤ g.deck.length := by
      rw [List.length_map]
      exact hdeck
    obtain ⟨A, B, C, F, D⟩ := drawOthersLoop_facts pid count
      (g.players.map fun p => p.id) g hnd hsome hdeck2
    rw [drawForOthers_eq_loop]
    exact ⟨fun p hp hne => A p.id (List.mem_map_of_mem _ hp) hne, C⟩
  · refine ⟨by decide, by decide, by decide, by decide, by decide, by decide, by decide⟩
  · refine ⟨by decide, by decide, by decide, by decide, by decide, by decide, by decide⟩

/-- C10 witness: the universal penalty-loop part instantiated on the
concrete PENG scenario state with count 2. -/
theorem c10_peng_gang_penalty_draws_witness :
    (∀ p ∈ c10PengState.players, p.id ≠ "c" →
      handLenOf (drawForOthers c10PengState "c" 2) p.id
        = handLenOf c10PengState p.id + 2)
    ∧ handLenOf (drawForOthers c10PengState "c" 2) "c" = handLenOf c10PengState "c" :=
  c10_peng_gang_penalty_draws.1 c10PengState "c" 2 (by decide) (by decide)

end UMD
